import Mathlib

/-!
Verification development for the component-generation backend.

The Python sources embedded here (shallowly, over `List Char` strings) are:
  * `app/agents/validator.py`   — `ComponentValidator` (`_automated_validation`,
    `_llm_validation`, `_merge_validations`, `process` and its helper checks);
  * `app/agents/base.py`        — `parse_json_response`;
  * `app/utils/retry.py`        — `retry_async`;
  * `app/agents/orchestrator.py`— the status/progress updates of `_process_request`;
  * `app/agents/component_generator.py` — `_post_process_generation`'s required-file
    fallback loop and `_generate_fallback_content`.

Strings are modelled as `List Char` (`Str` below).  Python dict values appearing
in the artifact mapping are modelled by `FileVal` (text or a string-valued dict),
and Python exceptions by `PyError` inside `Except`.  Regular-expression searches
are modelled by executable scanners that are faithful to the specific patterns
occurring in the source (documented at each definition).  Floating point weights
0.3/0.25/0.15 are exact multiples of 1/100, and every weighted sum appearing here
is exactly representable, so the weighted overall score is modelled by integer
floor division by 100.
-/

/-- Characters of a Python string. -/
abbrev Str := List Char

/-- Python `\s` character class (ASCII range): space, tab, newline, CR, VT, FF. -/
def wsChar (c : Char) : Bool :=
  c = ' ' || c = '\t' || c = '\n' || c = '\r' || c = '\x0b' || c = '\x0c'

/-- Python `\w` character class (ASCII range): letters, digits, underscore. -/
def wordChar (c : Char) : Bool :=
  c.isAlpha || c.isDigit || c = '_'

/-- A quote character, Python regex class `["\x27]`. -/
def quoteChar (c : Char) : Bool :=
  c = '"' || c = '\x27'

/-- Python `str.lower()` (ASCII). -/
def lowerS (s : Str) : Str := s.map Char.toLower

/-- Python substring test `needle in haystack` for strings. -/
def subB (n h : Str) : Bool := h.tails.any fun t => n.isPrefixOf t

/-- Python `str.strip()`：drop whitespace from both ends. -/
def pyStrip (s : Str) : Str :=
  ((s.dropWhile wsChar).reverse.dropWhile wsChar).reverse

/-- Python `str.capitalize()`: first character upper-cased, the rest lower-cased. -/
def pyCapitalize (s : Str) : Str :=
  match s with
  | [] => []
  | c :: t => c.toUpper :: t.map Char.toLower

/-- Python `str.endswith(suffix)`. -/
def pyEndsWith (s suf : Str) : Bool := suf.isSuffixOf s

/-- Python `str.count(ch)` for a single character. -/
def pyCountChar (s : Str) (c : Char) : Nat := (s.filter (· = c)).length

/-- Python `'sep'.join(parts)` for a one-string separator. -/
def pyJoin (sep : Str) (parts : List Str) : Str :=
  match parts with
  | [] => []
  | p :: rest => p ++ (rest.map (fun q => sep ++ q)).foldr (· ++ ·) []

/-- Python `str.split('/')`-style split on a single separator character. -/
def pySplitChar (c : Char) (s : Str) : List Str :=
  match s with
  | [] => [[]]
  | a :: t =>
    let r := pySplitChar c t
    if a = c then [] :: r
    else match r with
         | [] => [[a]]
         | h :: rs => (a :: h) :: rs

/-- Python `str(n)` for a natural number. -/
def natToStr (n : Nat) : Str := (Nat.repr n).data

/-- First index of an occurrence of `n` as a contiguous sublist of `h`. -/
def firstSubIdx (n : Str) : Str → Option Nat
  | [] => if n = [] then some 0 else none
  | c :: t =>
    if n.isPrefixOf (c :: t) then some 0
    else (firstSubIdx n t).map (· + 1)

/-- Existential regex search: does the predicate match at some suffix start? -/
def anyTail (f : Str → Bool) (s : Str) : Bool := s.tails.any f

/-- `re.search(r'aria-\w+', s)`: literal "aria-" followed by at least one word char. -/
def ariaMatch (s : Str) : Bool :=
  anyTail (fun t => "aria-".data.isPrefixOf t &&
    match t.drop 5 with
    | c :: _ => wordChar c
    | [] => false) s

/-- Case-insensitive `X\s*\(`-style search on an already lower-cased string:
literal `lit`, then optional whitespace, then the single character `c`. -/
def litWsCharMatch (lit : Str) (c : Char) (s : Str) : Bool :=
  anyTail (fun t => lit.isPrefixOf t &&
    ((t.drop lit.length).dropWhile wsChar).head? == some c) s

/-- `re.search(r'eval\s*\(', all, re.IGNORECASE)` (input must be lower-cased). -/
def evalCallMatch (s : Str) : Bool := litWsCharMatch "eval".data '(' s

/-- `re.search(r'innerHTML\s*=', all, re.IGNORECASE)` (input lower-cased). -/
def innerHtmlAssignMatch (s : Str) : Bool := litWsCharMatch "innerhtml".data '=' s

/-- `re.search(r'document\.write\s*\(', all, re.IGNORECASE)` (input lower-cased). -/
def docWriteMatch (s : Str) : Bool := litWsCharMatch "document.write".data '(' s

/-- `re.search(r'Function\s*\(', all, re.IGNORECASE)` (input lower-cased). -/
def functionCtorMatch (s : Str) : Bool := litWsCharMatch "function".data '(' s

/-- `re.search(r'NAME\s*\([^,)]*["\x27][^"\x27]*["\x27]', all, re.IGNORECASE)`
for string-based `setTimeout` / `setInterval` (input lower-cased). -/
def strTimerMatch (name : Str) (s : Str) : Bool :=
  anyTail (fun t => name.isPrefixOf t &&
    match ((t.drop name.length).dropWhile wsChar) with
    | '(' :: v =>
      let w := v.takeWhile fun c => !(c = ',' || c = ')')
      match w.findIdx? quoteChar with
      | some k => (v.drop (k + 1)).any quoteChar
      | none => false
    | _ => false) s

/-- `re.search(r'KEY\s*=\s*["\x27][^"\x27]+["\x27]', all, re.IGNORECASE)` for one of
the hardcoded-secret patterns; `keys` lists the alternative literal spellings
(to cover `api[_-]?key`).  Input must be lower-cased. -/
def secretAssignMatch (keys : List Str) (s : Str) : Bool :=
  anyTail (fun t => keys.any fun key =>
    key.isPrefixOf t &&
    match ((t.drop key.length).dropWhile wsChar) with
    | '=' :: v =>
      match v.dropWhile wsChar with
      | q :: v1 =>
        quoteChar q &&
        (match v1.findIdx? quoteChar with
         | some k => decide (1 ≤ k)
         | none => false)
      | [] => false
    | _ => false) s

/-- `re.search(r'HEAD\s+.*MID.*\+', ...)`-style SQL-injection searches, lower-cased
input.  `.` does not cross newlines while `\s+` may; with the maximal-munch
argument this becomes: after `head` and its whitespace run, `mid` occurs on the
current line and a `+` occurs after it before the next newline (`mid = []`
degenerates to: a `+` on the current line).  `tail≠[]` asks for a trailing
literal after the `+` instead (`SELECT\s+.*\+.*FROM` shape). -/
def sqlShapeMatch (head mid tail : Str) (s : Str) : Bool :=
  anyTail (fun t => head.isPrefixOf t &&
    (match t.drop head.length with
     | c :: _ =>
       wsChar c &&
       (let u := (t.drop head.length).dropWhile wsChar
        let line := u.takeWhile (· ≠ '\n')
        match firstSubIdx mid line with
        | some m =>
          let afterMid := u.drop (m + mid.length)
          let line2 := afterMid.takeWhile (· ≠ '\n')
          match line2.findIdx? (· = '+') with
          | some p =>
            decide (tail = []) ||
              subB tail ((afterMid.drop (p + 1)).takeWhile (· ≠ '\n'))
          | none => false
        | none => false)
     | [] => false)) s

/-- `re.search(r'\$\{[^}]*@\s*context\s*=\s*["\x27]unsafe["\x27][^}]*\}', htl)`. -/
def unsafeContextMatch (s : Str) : Bool :=
  anyTail (fun t => "$\x7b".data.isPrefixOf t &&
    (let seg := t.drop 2
     let w := seg.takeWhile (· ≠ '\x7d')
     decide (w.length < seg.length) &&
     (List.range w.length).any fun k =>
       (w.get? k == some '@') &&
       (let u := (w.drop (k + 1)).dropWhile wsChar
        "context".data.isPrefixOf u &&
        (match (u.drop 7).dropWhile wsChar with
         | '=' :: v =>
           match v.dropWhile wsChar with
           | q :: v1 =>
             quoteChar q && "unsafe".data.isPrefixOf v1 &&
             (match (v1.drop 6).head? with
              | some q2 => quoteChar q2
              | none => false)
           | [] => false
         | _ => false)))) s

/-- `re.search(r'<script[^>]*>\s*\$\{', htl)`. -/
def scriptInjectionMatch (s : Str) : Bool :=
  anyTail (fun t => "<script".data.isPrefixOf t &&
    (let seg := t.drop 7
     let w := seg.takeWhile (· ≠ '>')
     decide (w.length < seg.length) &&
     "$\x7b".data.isPrefixOf ((seg.drop (w.length + 1)).dropWhile wsChar))) s

/-- `re.search(r'// Add .* here', content, re.IGNORECASE)` (input lower-cased):
the `.*` cannot cross a newline. -/
def commentAddMatch (s : Str) : Bool :=
  anyTail (fun t => "// add ".data.isPrefixOf t &&
    subB " here".data ((t.drop 7).takeWhile (· ≠ '\n'))) s

/-- `re.search(r'/\* .* code here \*/', content, re.IGNORECASE)` (input
lower-cased): the `.*` cannot cross a newline. -/
def commentBlockMatch (s : Str) : Bool :=
  anyTail (fun t => "/* ".data.isPrefixOf t &&
    subB " code here */".data ((t.drop 3).takeWhile (· ≠ '\n'))) s

/-- Possible prefix match of `re.search(r'public\s+class\s+(\w+)', s)` at the
start of `s`: returns the captured class name. -/
def pubClassAt (s : Str) : Option Str :=
  if "public".data.isPrefixOf s then
    match s.drop 6 with
    | c :: t =>
      if wsChar c then
        let s2 := t.dropWhile wsChar
        if "class".data.isPrefixOf s2 then
          match s2.drop 5 with
          | d :: u =>
            if wsChar d then
              let w := (u.dropWhile wsChar).takeWhile wordChar
              if w = [] then none else some w
            else none
          | [] => none
        else none
      else none
    | [] => none
  else none

/-- `re.search(r'public\s+class\s+(\w+)', s)`: leftmost match, captured name. -/
def findPublicClass : Str → Option Str
  | [] => none
  | c :: t =>
    match pubClassAt (c :: t) with
    | some w => some w
    | none => findPublicClass t

/-- Possible match of `re.search(r'package\s+([^;]+);', s)` at the start of `s`.
Greedy `\s+` takes the maximal whitespace run, backing off just enough to leave
the `[^;]+` capture non-empty before the first following `;`. -/
def pkgDeclAt (s : Str) : Option Str :=
  if "package".data.isPrefixOf s then
    let a := s.drop 7
    let wlen := (a.takeWhile wsChar).length
    match a.findIdx? (· = ';') with
    | some j =>
      if 1 ≤ wlen ∧ 2 ≤ j then
        let w := min wlen (j - 1)
        some ((a.drop w).take (j - w))
      else none
    | none => none
  else none

/-- `re.search(r'package\s+([^;]+);', s)`: leftmost match, captured text. -/
def findPackageDecl : Str → Option Str
  | [] => none
  | c :: t =>
    match pkgDeclAt (c :: t) with
    | some w => some w
    | none => findPackageDecl t

/-- `re.findall(r'<(\w+)[^>]*(?<!/)>', s)`: captured names of opening HTML tags
that are not self-closing.  After the tag-name word run, `[^>]*` runs to the
first `>`; the look-behind requires the character before that `>` not to be
`/` (with no feasible backtracking, as no shorter `[^>]*` reaches a `>`). -/
def openTagsAux : Nat → Str → List Str
  | 0, _ => []
  | _, [] => []
  | fuel + 1, '<' :: t =>
    let w := t.takeWhile wordChar
    if w = [] then openTagsAux fuel t
    else
      let rest := t.drop w.length
      match rest.findIdx? (· = '>') with
      | none => openTagsAux fuel t
      | some j =>
        if j = 0 then w :: openTagsAux fuel (rest.drop 1)
        else if rest.get? (j - 1) == some '/' then openTagsAux fuel t
        else w :: openTagsAux fuel (rest.drop (j + 1))
  | fuel + 1, _ :: t => openTagsAux fuel t

/-- `re.findall(r'<(\w+)[^>]*(?<!/)>', s)`. -/
def findAllOpenTags (s : Str) : List Str := openTagsAux s.length s

/-- `re.findall(r'</(\w+)>', s)`. -/
def closeTagsAux : Nat → Str → List Str
  | 0, _ => []
  | _, [] => []
  | fuel + 1, c :: t =>
    if "</".data.isPrefixOf (c :: t) then
      let w := (t.drop 1).takeWhile wordChar
      if w ≠ [] ∧ ((t.drop 1).drop w.length).head? = some '>' then
        w :: closeTagsAux fuel ((t.drop 1).drop (w.length + 1))
      else closeTagsAux fuel t
    else closeTagsAux fuel t

/-- `re.findall(r'</(\w+)>', s)`. -/
def findAllCloseTags (s : Str) : List Str := closeTagsAux s.length s

/-- `re.findall(r'data-sly-use\.\w+="([^"]*)"', s)`: captured class names. -/
def slyUseAux : Nat → Str → List Str
  | 0, _ => []
  | _, [] => []
  | fuel + 1, c :: t =>
    if "data-sly-use.".data.isPrefixOf (c :: t) then
      let afterDot := (c :: t).drop 13
      let w := afterDot.takeWhile wordChar
      if w = [] then slyUseAux fuel t
      else
        let rest := afterDot.drop w.length
        if "=\"".data.isPrefixOf rest then
          let body := (rest.drop 2).takeWhile (· ≠ '"')
          if body.length < (rest.drop 2).length then
            body :: slyUseAux fuel ((rest.drop 2).drop (body.length + 1))
          else slyUseAux fuel t
        else slyUseAux fuel t
    else slyUseAux fuel t

/-- `re.findall(r'data-sly-use\.\w+="([^"]*)"', s)`. -/
def findAllSlyUse (s : Str) : List Str := slyUseAux s.length s

/-- `re.match(r'^[a-zA-Z][a-zA-Z0-9.]*$', s)`: full-string match used for
data-sly-use class names. -/
def slyUseNameOk (s : Str) : Bool :=
  match s with
  | [] => false
  | c :: t => (c.isAlpha) && t.all fun d => d.isAlpha || d.isDigit || d = '.'

/-- `re.match(r'^[A-Z][a-zA-Z0-9]*$', s)`: PascalCase check on a class name. -/
def pascalCaseOk (s : Str) : Bool :=
  match s with
  | [] => false
  | c :: t => (c.isUpper && c.isAlpha) && t.all fun d => d.isAlpha || d.isDigit

/-- Backward parse for `re.findall(r'@ValueMapValue[^;]*private\s+\w+\s+(\w+);', s)`:
given the segment between an `@ValueMapValue` literal and the first following
`;` (which contains no `;`), the match is forced to end exactly at that `;`,
so the captured field name is the maximal word run right before it, preceded by
whitespace, a type word run, whitespace, and the literal `private`. -/
def vmvFieldOfSeg (seg : Str) : Option Str :=
  let r := seg.reverse
  let name := r.takeWhile wordChar
  if name = [] then none
  else
    let r1 := r.drop name.length
    let ws1 := r1.takeWhile wsChar
    if ws1 = [] then none
    else
      let r2 := r1.drop ws1.length
      let ty := r2.takeWhile wordChar
      if ty = [] then none
      else
        let r3 := r2.drop ty.length
        let ws2 := r3.takeWhile wsChar
        if ws2 = [] then none
        else
          if "etavirp".data.isPrefixOf (r3.drop ws2.length) then
            some name.reverse
          else none

/-- `re.findall(r'@ValueMapValue[^;]*private\s+\w+\s+(\w+);', s)`: scan for the
literal `@ValueMapValue`, pair it with the first following `;`, and parse the
segment backwards; on success, continue after the `;`. -/
def vmvFieldsAux : Nat → Str → List Str
  | 0, _ => []
  | _, [] => []
  | fuel + 1, c :: t =>
    if "@ValueMapValue".data.isPrefixOf (c :: t) then
      let seg0 := (c :: t).drop 14
      match seg0.findIdx? (· = ';') with
      | none => vmvFieldsAux fuel t
      | some j =>
        match vmvFieldOfSeg (seg0.take j) with
        | some name => name :: vmvFieldsAux fuel (seg0.drop (j + 1))
        | none => vmvFieldsAux fuel t
    else vmvFieldsAux fuel t

/-- `re.findall(r'@ValueMapValue[^;]*private\s+\w+\s+(\w+);', s)`. -/
def findAllVMVFields (s : Str) : List Str := vmvFieldsAux s.length s

/-- `re.search(f"get{Cap}\\(\\)\\s*{{([^}}]+)}}", s)`: the first occurrence of
`getter()` followed by optional whitespace, `{`, a non-empty brace-free body
(the capture), and `}`. -/
def getterBodyAux (getter : Str) : Nat → Str → Option Str
  | 0, _ => none
  | _, [] => none
  | fuel + 1, c :: t =>
    if (getter ++ "()".data).isPrefixOf (c :: t) then
      let u := ((c :: t).drop (getter.length + 2)).dropWhile wsChar
      match u with
      | '\x7b' :: v =>
        let body := v.takeWhile (· ≠ '\x7d')
        if body ≠ [] ∧ body.length < v.length then some body
        else getterBodyAux getter fuel t
      | _ => getterBodyAux getter fuel t
    else getterBodyAux getter fuel t

/-- `re.search(f"get{Cap}\\(\\)\\s*{{([^}}]+)}}", s)`: captured getter body. -/
def findGetterBody (getter : Str) (s : Str) : Option Str :=
  getterBodyAux getter s.length s

/-- Python `str.replace(pat, repl)` (all occurrences, left to right), for a
non-empty pattern. -/
def pyReplaceAux (pat repl : Str) : Nat → Str → Str
  | 0, s => s
  | _, [] => []
  | fuel + 1, c :: t =>
    if pat ≠ [] ∧ pat.isPrefixOf (c :: t) then
      repl ++ pyReplaceAux pat repl fuel ((c :: t).drop pat.length)
    else c :: pyReplaceAux pat repl fuel t

/-- Python `str.replace(pat, repl)`. -/
def pyReplace (pat repl s : Str) : Str := pyReplaceAux pat repl s.length s

/-- A value of the artifact mapping handed to the validator: either a Python
string or a string-valued Python dict (the shapes produced by the generator:
`projectStructure` and `clientlibs` are dicts, everything else text). -/
inductive FileVal where
  | str (s : Str)
  | dict (entries : List (Str × Str))
deriving DecidableEq

/-- Python truthiness of a `FileVal` (`if file_content:`). -/
def FileVal.truthy : FileVal → Bool
  | .str s => s ≠ []
  | .dict m => m ≠ []

/-- Python `needle in value`: substring test on strings, key membership on dicts. -/
def FileVal.hasSub (v : FileVal) (needle : Str) : Bool :=
  match v with
  | .str s => subB needle s
  | .dict m => m.any fun p => p.1 = needle

/-- The artifact mapping `files` (a Python dict, insertion ordered). -/
abbrev Files := List (Str × FileVal)

/-- Python `files.get(k)`. -/
def getFile (files : Files) (k : Str) : Option FileVal :=
  (files.find? fun p => p.1 = k).map (·.2)

/-- Assoc-list lookup for string-valued dicts (`d.get(k)`). -/
def getEntry (m : List (Str × Str)) (k : Str) : Option Str :=
  (m.find? fun p => p.1 = k).map (·.2)

/-- Python exceptions that the validator can raise on malformed artifact values. -/
inductive PyError where
  | attributeError
  | typeError
  | valueError
deriving DecidableEq

/-- The validator's report dict. -/
structure Report where
  validationStatus : Str
  score : Int
  issues : List Str
  suggestions : List Str
  details : List (Str × Int)
deriving DecidableEq


/-- Issue strings of the validator, named for use in the theorems below. -/
def noPublicClassMsg : Str := "No public class declaration found in Sling Model".data

def classMismatchMsg (c e : Str) : Str :=
  "Class name \x27".data ++ c ++ "\x27 does not match file name \x27".data ++ e ++
    "\x27.java\x27".data

def modelSuffixMsg (c : Str) : Str :=
  "Sling Model class \x27".data ++ c ++ "\x27 should end with \x27Model\x27 suffix".data

def pascalCaseMsg (c : Str) : Str :=
  "Class name \x27".data ++ c ++ "\x27 should be in PascalCase format".data

def missingPkgMsg : Str := "Missing package declaration in Sling Model".data

def pkgEndMsg (p : Str) : Str :=
  "Package \x27".data ++ p ++ "\x27 should end with \x27.core.models\x27".data

def pkgPathMsg (d e : Str) : Str :=
  "Package declaration \x27".data ++ d ++ "\x27 does not match file path \x27".data ++
    e ++ "\x27".data

def missingImportMsg (imp : Str) : Str := "Missing import: ".data ++ imp

def deprecatedInjMsg : Str :=
  "Using deprecated InjectionStrategy.OPTIONAL - use @Optional annotation instead".data

def adaptablesMsg : Str :=
  "@Model annotation should specify adaptables = Resource.class".data

def resourceTypeMsg : Str := "@Model annotation missing resourceType parameter".data

def bracesMsg (o c : Nat) : Str :=
  "Unmatched braces: ".data ++ natToStr o ++ " opening, ".data ++ natToStr c ++ " closing".data

def parensMsg (o c : Nat) : Str :=
  "Unmatched parentheses: ".data ++ natToStr o ++ " opening, ".data ++ natToStr c ++
    " closing".data

def getterMissingMsg (g f : Str) : Str :=
  "Missing getter method \x27".data ++ g ++ "()\x27 for field \x27".data ++ f ++ "\x27".data

def unmatchedTagMsg (t : Str) : Str :=
  "Unmatched HTML tag: <".data ++ t ++ "> has no closing tag".data

def slyUseNameMsg (m : Str) : Str := "Invalid data-sly-use class name: ".data ++ m

def xssTextContentMsg : Str := "Potential XSS: Use textContent instead of innerHTML".data

def docWriteIssueMsg : Str := "Potential XSS: Avoid document.write()".data

def evalUpperMsg : Str := "Security risk: Avoid eval() function".data

def functionCtorMsg : Str := "Security risk: Avoid Function() constructor".data

def setTimeoutMsg : Str := "Potential XSS: Avoid string-based setTimeout".data

def setIntervalMsg : Str := "Potential XSS: Avoid string-based setInterval".data

def sqlInjMsg : Str := "Potential SQL injection: Use parameterized queries".data

def pwdMsg : Str := "Hardcoded password detected".data

def secretMsg : Str := "Hardcoded secret detected".data

def apiKeyMsg : Str := "Hardcoded API key detected".data

def tokenMsg : Str := "Hardcoded token detected".data

def stringUtilsMsg : Str :=
  "Consider adding input validation using StringUtils or similar".data

def resLeakMsg : Str :=
  "Potential resource leak: ResourceResolver should be properly closed".data

def getterNullMsg (f : Str) : Str :=
  "Getter for \x27".data ++ f ++ "\x27 should include null safety check".data

def unsafeCtxMsg : Str :=
  "Unsafe context detected in HTL - potential XSS vulnerability".data

def scriptInjMsg : Str :=
  "Direct variable injection in script tag - potential XSS".data

def htlDslyMsg : Str :=
  "HTL missing data-sly-use directive for Sling Model integration".data

def slingModelAnnoMsg : Str := "Sling Model missing @Model annotation".data

def nullSafetyMsg : Str := "Missing null safety checks in Sling Model".data

def innerHtmlIssueMsg : Str := "Potential XSS vulnerability: avoid innerHTML".data

def evalLowerMsg : Str := "Security risk: avoid eval() function".data

/-- `_validate_java_class_consistency(java_content, file_path)` of
`validator.py`. -/
def validate_java_class_consistency (java_content file_path : Str) : List Str :=
  match findPublicClass java_content with
  | none => [noPublicClassMsg]
  | some class_name =>
    (if file_path ≠ [] then
      let expected := pyReplace ".java".data [] ((pySplitChar '/' file_path).getLastD [])
      if class_name ≠ expected then
        [classMismatchMsg class_name expected]
      else []
    else []) ++
    (if ¬ pyEndsWith class_name "Model".data then
      [modelSuffixMsg class_name]
    else []) ++
    (if ¬ pascalCaseOk class_name then
      [pascalCaseMsg class_name]
    else [])

/-- The Java-class/file-name consistency step of `_automated_validation` (the
guarded call at validator.py line 134): raises `AttributeError` when the
`projectStructure` entry is a plain string (`.get` on `str`), and `TypeError`
when `re.search` runs over a dict-valued `slingModel`. -/
def javaStep (files : Files) : Except PyError (List Str) :=
  match getFile files "slingModel".data with
  | none => .ok []
  | some sm =>
    if sm.truthy then
      match getFile files "projectStructure".data with
      | none => .ok []
      | some (.str _) => .error .attributeError
      | some (.dict ps) =>
        match getEntry ps "slingModelPath".data with
        | none => .ok []
        | some path =>
          if path ≠ [] then
            match sm with
            | .str js => .ok (validate_java_class_consistency js path)
            | .dict _ => .error .typeError
          else .ok []
    else .ok []

/-- `_validate_package_declarations(files)` of `validator.py`.  Raises
`TypeError` when `re.search` runs over a dict-valued `slingModel`, and
`AttributeError` when `.get` runs over a string-valued `projectStructure`. -/
def validate_package_declarations (files : Files) : Except PyError (List Str) :=
  match getFile files "slingModel".data with
  | none => .ok []
  | some (.dict m) => if m ≠ [] then .error .typeError else .ok []
  | some (.str s) =>
    if s = [] then .ok []
    else
      match findPackageDecl s with
      | none => .ok [missingPkgMsg]
      | some raw =>
        let declared := pyStrip raw
        let issues1 :=
          if ¬ pyEndsWith declared "core.models".data then [pkgEndMsg declared]
          else []
        match getFile files "projectStructure".data with
        | none => .ok issues1
        | some (.str _) => .error .attributeError
        | some (.dict ps) =>
          let path := (getEntry ps "slingModelPath".data).getD []
          if path = [] then .ok issues1
          else
            let parts := pySplitChar '/' path
            match parts.findIdx? (· = "java".data) with
            | none => .ok issues1
            | some j =>
              if j + 1 < parts.length then
                let expected := pyJoin ".".data ((parts.drop (j + 1)).dropLast)
                if declared ≠ expected then
                  .ok (issues1 ++ [pkgPathMsg declared expected])
                else .ok issues1
              else .ok issues1

/-- The ordered `required_patterns` table of `_check_compilation_errors`. -/
def requiredPatterns : List (Str × Str) :=
  [ ( "@Model".data, "import org.apache.sling.models.annotations.Model;".data),
    ( "@ValueMapValue".data,
      "import org.apache.sling.models.annotations.injectorspecific.ValueMapValue;".data),
    ( "Resource".data, "import org.apache.sling.api.resource.Resource;".data),
    ( "@Optional".data, "import org.apache.sling.models.annotations.Optional;".data),
    ( "@Default".data, "import org.apache.sling.models.annotations.Default;".data),
    ( "@PostConstruct".data, "import javax.annotation.PostConstruct;".data),
    ( "List<".data, "import java.util.List;".data),
    ( "ArrayList".data, "import java.util.ArrayList;".data)]

/-- The Sling-Model part of `_check_compilation_errors` on a string artifact. -/
def slingCompIssues (s : Str) : List Str :=
  (requiredPatterns.filterMap fun pq =>
    if subB pq.1 s ∧ ¬ subB pq.2 s then some (missingImportMsg pq.2)
    else none) ++
  (if subB "InjectionStrategy.OPTIONAL".data s then
    [deprecatedInjMsg]
  else []) ++
  (if subB "@Model".data s then
    (if ¬ (subB "adaptables".data s ∧ subB "Resource.class".data s) then
      [adaptablesMsg]
    else []) ++
    (if ¬ subB "resourceType".data s then
      [resourceTypeMsg]
    else [])
  else []) ++
  (let ob := pyCountChar s '\x7b'
   let cb := pyCountChar s '\x7d'
   if ob ≠ cb then [bracesMsg ob cb]
   else []) ++
  (let op := pyCountChar s '('
   let cp := pyCountChar s ')'
   if op ≠ cp then [parensMsg op cp]
   else []) ++
  ((findAllVMVFields s).filterMap fun field =>
    let getter := "get".data ++ pyCapitalize field
    if ¬ subB getter s then some (getterMissingMsg getter field)
    else none)

/-- The HTL part of `_check_compilation_errors` on a string artifact. -/
def htlCompIssues (s : Str) : List Str :=
  (let closes := findAllCloseTags s
   (findAllOpenTags s).filterMap fun tag =>
     if tag ∉ closes then some (unmatchedTagMsg tag)
     else none) ++
  ((findAllSlyUse s).filterMap fun m =>
    if ¬ slyUseNameOk m then some (slyUseNameMsg m)
    else none)

/-- `_check_compilation_errors(files)` of `validator.py`.  A truthy dict-valued
`slingModel` survives the substring membership checks (dict key membership) but
raises `AttributeError` at `sling_model.count('{')`; a truthy dict-valued `htl`
raises `TypeError` at `re.findall`.  The Sling-Model half: -/
def slingCompPart (files : Files) : Except PyError (List Str) :=
  match getFile files "slingModel".data with
  | none => .ok []
  | some (.dict m) => if m ≠ [] then .error .attributeError else .ok []
  | some (.str s) => if s = [] then .ok [] else .ok (slingCompIssues s)

/-- The HTL half of `_check_compilation_errors`. -/
def htlCompPart (files : Files) : Except PyError (List Str) :=
  match getFile files "htl".data with
  | none => .ok []
  | some (.dict m) => if m ≠ [] then .error .typeError else .ok []
  | some (.str s) => if s = [] then .ok [] else .ok (htlCompIssues s)

/-- `_check_compilation_errors(files)` joined. -/
def check_compilation_errors (files : Files) : Except PyError (List Str) := do
  let smIssues ← slingCompPart files
  let htlIssues ← htlCompPart files
  pure (smIssues ++ htlIssues)

/-- The concatenation `"\n--- {file_name} ---\n{content}\n"` over string-valued
artifacts built by `_check_security_vulnerabilities`. -/
def sweepJoin (files : Files) : Str :=
  (files.map fun p =>
    match p.2 with
    | .str c => "\n--- ".data ++ p.1 ++ " ---\n".data ++ c ++ "\n".data
    | .dict _ => []).foldr (· ++ ·) []

/-- The XSS / SQL-injection / hardcoded-secret sweeps of
`_check_security_vulnerabilities`, over the lower-cased joined content. -/
def sweepPatternIssues (allLower : Str) : List Str :=
  (if innerHtmlAssignMatch allLower then
    [xssTextContentMsg] else []) ++
  (if docWriteMatch allLower then
    [docWriteIssueMsg] else []) ++
  (if evalCallMatch allLower then
    [evalUpperMsg] else []) ++
  (if functionCtorMatch allLower then
    [functionCtorMsg] else []) ++
  (if strTimerMatch "settimeout".data allLower then
    [setTimeoutMsg] else []) ++
  (if strTimerMatch "setinterval".data allLower then
    [setIntervalMsg] else []) ++
  (if sqlShapeMatch "select".data [] "from".data allLower then
    [sqlInjMsg] else []) ++
  (if sqlShapeMatch "insert".data [] "values".data allLower then
    [sqlInjMsg] else []) ++
  (if sqlShapeMatch "update".data "set".data [] allLower then
    [sqlInjMsg] else []) ++
  (if sqlShapeMatch "delete".data "where".data [] allLower then
    [sqlInjMsg] else []) ++
  (if secretAssignMatch [ "password".data] allLower then
    [pwdMsg] else []) ++
  (if secretAssignMatch [ "secret".data] allLower then
    [secretMsg] else []) ++
  (if secretAssignMatch [ "apikey".data, "api_key".data, "api-key".data] allLower then
    [apiKeyMsg] else []) ++
  (if secretAssignMatch [ "token".data] allLower then
    [tokenMsg] else [])

/-- The Sling-Model-specific part of `_check_security_vulnerabilities` on a
string artifact. -/
def slingSecIssues (s : Str) : List Str :=
  (if subB "@ValueMapValue".data s ∧ ¬ subB "StringUtils".data s then
    [stringUtilsMsg] else []) ++
  (if subB "ResourceResolver".data s ∧ ¬ subB "close()".data s then
    [resLeakMsg]
  else []) ++
  ((findAllVMVFields s).filterMap fun field =>
    let getter := "get".data ++ pyCapitalize field
    if subB (getter ++ "()".data) s then
      match findGetterBody getter s with
      | some body =>
        if ¬ subB "null".data (lowerS body) then some (getterNullMsg field)
        else none
      | none => none
    else none)

/-- The HTL-specific part of `_check_security_vulnerabilities` on a string
artifact. -/
def htlSecIssues (s : Str) : List Str :=
  (if unsafeContextMatch s then
    [unsafeCtxMsg] else []) ++
  (if scriptInjectionMatch s then
    [scriptInjMsg] else [])

/-- `_check_security_vulnerabilities(files)` of `validator.py`.  A truthy
dict-valued `slingModel` or `htl` raises `TypeError` at the first `re.findall`
over it.  The Sling-Model-specific half: -/
def slingSecPart (files : Files) : Except PyError (List Str) :=
  match getFile files "slingModel".data with
  | none => .ok []
  | some (.dict m) => if m ≠ [] then .error .typeError else .ok []
  | some (.str s) => if s = [] then .ok [] else .ok (slingSecIssues s)

/-- The HTL-specific half of `_check_security_vulnerabilities`. -/
def htlSecPart (files : Files) : Except PyError (List Str) :=
  match getFile files "htl".data with
  | none => .ok []
  | some (.dict m) => if m ≠ [] then .error .typeError else .ok []
  | some (.str s) => if s = [] then .ok [] else .ok (htlSecIssues s)

/-- `_check_security_vulnerabilities(files)` joined. -/
def check_security_vulnerabilities (files : Files) : Except PyError (List Str) := do
  let sling ← slingSecPart files
  let htl ← htlSecPart files
  pure (sweepPatternIssues (lowerS (sweepJoin files)) ++ sling ++ htl)

/-- Flatten a list of issue segments (Python list building via repeated
`append`/`extend`). -/
def concatAll (l : List (List Str)) : List Str := l.foldr (· ++ ·) []

/-- How many of the eight `placeholder_patterns` of `_automated_validation`
match a string artifact (all searched with `re.IGNORECASE`). -/
def placeholderMatchCount (content : Str) : Nat :=
  let lc := lowerS content
  [ subB "todo".data lc,
    subB "fixme".data lc,
    commentAddMatch lc,
    commentBlockMatch lc,
    subB "...".data lc,
    subB "placeholder".data lc,
    subB "implement here".data lc,
    subB "fill in".data lc].count true

/-- The issue string appended for each placeholder-pattern hit in a file. -/
def placeholderMsg (file_name : Str) : Str :=
  "Placeholder or incomplete code found in ".data ++ file_name

/-- The placeholder loop of `_automated_validation`: one issue copy and one
−15 completeness deduction per (file, matching pattern) pair, in file order. -/
def placeholderIssues (files : Files) : List Str :=
  concatAll (files.map fun p =>
    match p.2 with
    | .str c => List.replicate (placeholderMatchCount c) (placeholderMsg p.1)
    | .dict _ => [])

/-- Total number of (file, matching pattern) placeholder hits. -/
def placeholderTotal (files : Files) : Nat :=
  (files.map fun p =>
    match p.2 with
    | .str c => placeholderMatchCount c
    | .dict _ => 0).sum

/-- The `required_files` list of `_automated_validation`. -/
def requiredFiles : List Str := [ "slingModel".data, "htl".data, "dialog".data]

/-- `not file_content or (isinstance(file_content, str) and not
file_content.strip())`: the required-file test of `_automated_validation`. -/
def isMissingFile (files : Files) (k : Str) : Bool :=
  match getFile files k with
  | none => true
  | some v =>
    !v.truthy ||
      (match v with
       | .str s => pyStrip s = []
       | .dict _ => false)

/-- The missing/empty required artifacts, in `required_files` order. -/
def missingFiles (files : Files) : List Str :=
  requiredFiles.filter (isMissingFile files)

/-- The aggregate missing-files issue. -/
def missingFilesMsg (missing : List Str) : Str :=
  "Missing or empty required files: ".data ++ pyJoin ", ".data missing

/-- The four structural flags computed on a non-empty string `htl` artifact. -/
structure HtlFlags where
  dsly : Bool
  aria : Bool
  condTest : Bool
  cssHook : Bool
deriving DecidableEq

/-- The HTL scoring branch of `_automated_validation` (validator.py 162-191).
A truthy dict-valued `htl` passes the `'data-sly-use' in htl_content` key
membership but raises `TypeError` at `re.search(r'aria-\w+', ...)`. -/
def htlBranch (files : Files) : Except PyError (Option HtlFlags) :=
  match getFile files "htl".data with
  | none => .ok none
  | some (.dict m) => if m ≠ [] then .error .typeError else .ok none
  | some (.str s) =>
    if s = [] then .ok none
    else .ok (some
      { dsly := subB "data-sly-use".data s
        aria := ariaMatch s
        condTest := subB "data-sly-test".data s || subB "data-sly-if".data s
        cssHook := subB "class=".data s || subB "id=".data s })

/-- The structural flags of the Sling-Model scoring branch (validator.py
194-226); every check there is a Python `in` test, so dict values score via
key membership without raising. -/
structure SlingFlags where
  hasModelAnno : Bool
  hasInject : Bool
  hasNullSafety : Bool
  hasPostConstruct : Bool
  resLeak : Bool
deriving DecidableEq

/-- Flags of the Sling-Model scoring branch for a truthy value. -/
def slingFlags (v : FileVal) : SlingFlags :=
  { hasModelAnno := v.hasSub "@Model".data
    hasInject := v.hasSub "@Inject".data || v.hasSub "@ValueMapValue".data
    hasNullSafety := v.hasSub "StringUtils.isNotBlank".data ||
      v.hasSub "Optional".data || v.hasSub "null".data
    hasPostConstruct := v.hasSub "@PostConstruct".data
    resLeak := v.hasSub "ResourceResolver".data && !v.hasSub "try-with-resources".data }

/-- The Sling-Model branch value: `none` when `files.get('slingModel', '')` is
falsy. -/
def slingBranch (files : Files) : Option SlingFlags :=
  match getFile files "slingModel".data with
  | none => none
  | some v => if v.truthy then some (slingFlags v) else none

/-- The dialog branch flags (validator.py 229-241); both checks are `in` tests. -/
def dialogBranch (files : Files) : Option (Bool × Bool) :=
  match getFile files "dialog".data with
  | none => none
  | some v =>
    if v.truthy then some (v.hasSub "granite/ui/components".data, v.hasSub "fieldLabel".data)
    else none

/-- The clientlibs branch (validator.py 244-265): `files.get('clientlibs', {})`
only scores when the value is a dict; `css`/`js` entries default to `''`. -/
def clientlibsBranch (files : Files) : Option (Str × Str) :=
  match getFile files "clientlibs".data with
  | none => some ([], [])
  | some (.str _) => none
  | some (.dict m) =>
    some ((getEntry m "css".data).getD [], (getEntry m "js".data).getD [])

/-- `' '.join(str(content) for content in files.values() if isinstance(content,
str))` (validator.py line 268). -/
def allContentJoined (files : Files) : Str :=
  pyJoin " ".data (files.filterMap fun p =>
    match p.2 with
    | .str c => some c
    | .dict _ => none)

/-- `max(0, min(100, v))`: the final clamp applied to every category score. -/
def pyClamp (v : Int) : Int := max 0 (min 100 v)

/-- `int(sum(scores[key] * weights[key] for key in scores))` with weights
completeness 0.3, bestPractices 0.25, performance/accessibility/security 0.15.
All weights are exact multiples of 1/100 and the clamped scores are integers,
so the float sum is exact and `int` of the non-negative sum is floor division
of the integer numerator by 100. -/
def overall_score (c b p a s : Int) : Int :=
  Int.fdiv (30 * c + 25 * b + 15 * p + 15 * a + 15 * s) 100

/-- Helper: the score contribution `v` applied when condition `b` holds. -/
def condI (b : Bool) (v : Int) : Int := if b then v else 0

/-- Count of passed checks among a list of flags (`htl_checks`, `model_checks`). -/
def passedChecks (l : List Bool) : Nat := l.count true

/-- The completeness category score of `_automated_validation` before clamping:
every deduction/bonus is applied by `-=`/`+=` with no intermediate read, so the
sequential mutations sum. -/
def completenessRaw (files : Files) (compIssues : List Str) (sling : Option SlingFlags) : Int :=
  100 - 15 * (placeholderTotal files : Int) - 25 * ((missingFiles files).length : Int) -
    condI (compIssues ≠ []) 30 +
    (match sling with
     | some f =>
       condI (3 ≤ passedChecks [f.hasModelAnno, f.hasInject, f.hasNullSafety, f.hasPostConstruct]) 5
     | none => 0)

/-- The bestPractices category score before clamping. -/
def bestPracticesRaw (javaIssues pkgIssues : List Str) (htl : Option HtlFlags)
    (sling : Option SlingFlags) (dialog : Option (Bool × Bool)) (js : Str) : Int :=
  100 - condI (javaIssues ≠ []) 20 - condI (pkgIssues ≠ []) 15 +
    (match htl with
     | some h =>
       - condI (!h.dsly) 15 - condI (!h.condTest) 5 +
         condI (3 ≤ passedChecks [h.dsly, h.aria, h.condTest, h.cssHook]) 5
     | none => 0) +
    (match sling with
     | some f =>
       - condI (!f.hasModelAnno) 20 - condI (!f.hasInject) 10 + condI f.hasPostConstruct 5
     | none => 0) +
    (match dialog with
     | some d => if d.1 then 5 else -10
     | none => 0) +
    condI (js ≠ [] && subB "addEventListener".data js) 5

/-- The performance category score before clamping. -/
def performanceRaw (htl : Option HtlFlags) (js : Str) : Int :=
  100 -
    (match htl with
     | some h => condI (!h.cssHook) 5
     | none => 0) -
    condI (js ≠ [] && subB "console.log".data js) 5

/-- The accessibility category score before clamping. -/
def accessibilityRaw (htl : Option HtlFlags) (dialog : Option (Bool × Bool)) (css : Str) : Int :=
  100 -
    (match htl with
     | some h => condI (!h.aria) 10
     | none => 0) +
    (match dialog with
     | some d => if d.2 then 5 else -10
     | none => 0) +
    (if css ≠ [] then
      (if subB "responsive".data css || subB "@media".data css then 5 else -5) +
        condI (subB "focus".data css || subB ":hover".data css) 5
    else 0)

/-- The security category score before clamping. -/
def securityRaw (vulnIssues : List Str) (sling : Option SlingFlags)
    (innerHtmlHit evalHit : Bool) : Int :=
  100 - condI (vulnIssues ≠ []) 25 -
    (match sling with
     | some f => condI (!f.hasNullSafety) 15 + condI f.resLeak 10
     | none => 0) -
    condI innerHtmlHit 20 - condI evalHit 25

/-- The report assembled at the end of `_automated_validation` once every
raising step has succeeded. -/
def assembleReport (files : Files) (javaIssues pkgIssues compIssues vulnIssues : List Str)
    (htl : Option HtlFlags) : Report :=
  let sling := slingBranch files
  let dialog := dialogBranch files
  let cljs := (clientlibsBranch files).getD ([], [])
  let css := cljs.1
  let js := cljs.2
  let joined := allContentJoined files
  let innerHtmlHit := subB "innerHTML".data joined
  let evalHit := subB "eval(".data joined
  let missing := missingFiles files
  let c := pyClamp (completenessRaw files compIssues sling)
  let b := pyClamp (bestPracticesRaw javaIssues pkgIssues htl sling dialog js)
  let p := pyClamp (performanceRaw htl js)
  let a := pyClamp (accessibilityRaw htl dialog css)
  let s := pyClamp (securityRaw vulnIssues sling innerHtmlHit evalHit)
  let overall := overall_score c b p a s
  { validationStatus := if 70 ≤ overall then "PASS".data else "FAIL".data
    score := overall
    issues :=
      placeholderIssues files ++
      (if missing ≠ [] then [missingFilesMsg missing] else []) ++
      javaIssues ++ pkgIssues ++ compIssues ++ vulnIssues ++
      (match htl with
       | some h =>
         if !h.dsly then [htlDslyMsg]
         else []
       | none => []) ++
      (match sling with
       | some f =>
         (if !f.hasModelAnno then [slingModelAnnoMsg] else []) ++
           (if !f.hasNullSafety then [nullSafetyMsg] else [])
       | none => []) ++
      (if innerHtmlHit then [innerHtmlIssueMsg] else []) ++
      (if evalHit then [evalLowerMsg] else [])
    suggestions :=
      (match htl with
       | some h =>
         (if !h.aria then [ "Add ARIA attributes for better accessibility".data] else []) ++
           (if !h.condTest then
             [ "Consider adding conditional rendering with data-sly-test".data] else []) ++
           (if !h.cssHook then [ "Add CSS classes for styling".data] else [])
       | none => []) ++
      (match sling with
       | some f =>
         (if !f.hasInject then
           [ "Consider using dependency injection (@Inject, @ValueMapValue)".data] else []) ++
           (if f.resLeak then [ "Use try-with-resources for ResourceResolver".data] else [])
       | none => []) ++
      (match dialog with
       | some d =>
         (if !d.1 then [ "Use Granite UI components in dialog".data] else []) ++
           (if !d.2 then [ "Add field labels for accessibility".data] else [])
       | none => []) ++
      (if css ≠ [] && !(subB "responsive".data css || subB "@media".data css) then
        [ "Consider responsive design in CSS".data] else []) ++
      (if js ≠ [] && subB "console.log".data js then
        [ "Remove console.log statements in production code".data] else [])
    details :=
      [ ( "completeness".data, c), ( "bestPractices".data, b), ( "performance".data, p),
        ( "accessibility".data, a), ( "security".data, s)] }

/-- `_automated_validation(files)` of `validator.py`: the helper checks run in
source order (each may raise on dict/str-shaped type confusion), then the
report is assembled with the final clamp, the weighted overall score and the
`PASS`/`FAIL` threshold at 70. -/
def automated_validation (files : Files) : Except PyError Report := do
  let javaIssues ← javaStep files
  let pkgIssues ← validate_package_declarations files
  let compIssues ← check_compilation_errors files
  let vulnIssues ← check_security_vulnerabilities files
  let htl ← htlBranch files
  pure (assembleReport files javaIssues pkgIssues compIssues vulnIssues htl)

/-- The five detail categories, in the order `_merge_validations` iterates. -/
def categories : List Str :=
  [ "completeness".data, "bestPractices".data, "performance".data,
    "accessibility".data, "security".data]

/-- `details.get(key, 0)` on a report's detail dict. -/
def detailsGet (d : List (Str × Int)) (k : Str) : Int :=
  ((d.find? fun p => p.1 = k).map (·.2)).getD 0

/-- `_merge_validations(auto_result, llm_result)` of `validator.py`.
`list(set(a + b))` keeps exactly the distinct elements of the two lists in an
order CPython leaves unspecified (hash order); it is modelled by `List.dedup`,
and every theorem about the merged lists only uses membership and
duplicate-freedom.  Python `//` on ints is floor division, `Int.fdiv`. -/
def merge_validations (auto_result llm_result : Report) : Report :=
  let final_score := Int.fdiv (auto_result.score + llm_result.score) 2
  { validationStatus := if 70 ≤ final_score then "PASS".data else "FAIL".data
    score := final_score
    issues := (auto_result.issues ++ llm_result.issues).dedup
    suggestions := (auto_result.suggestions ++ llm_result.suggestions).dedup
    details := categories.map fun k =>
      (k, Int.fdiv (detailsGet auto_result.details k + detailsGet llm_result.details k) 2) }

/-- A decoded secondary (model-based) assessment payload: the five keys the
validator reads, each possibly missing.  Field types follow the expected JSON
schema (scores are JSON numbers read as Python ints). -/
structure LLMJson where
  validationStatus : Option Str
  score : Option Int
  issues : Option (List Str)
  suggestions : Option (List Str)
  details : Option (List (Str × Int))

/-- Result of `json.loads` on the secondary response: either not a dict
(list/number/string — replaced by `{}` in `_llm_validation`) or a dict. -/
inductive JsonTop where
  | notDict
  | dict (j : LLMJson)

/-- `parse_json_response(response)` of `base.py`: `json.loads` success is the
`some` case; on any parse failure the method logs and raises
`ValueError("Invalid JSON response: ...")`. -/
def parse_json_response (decoded : Option JsonTop) : Except PyError JsonTop :=
  match decoded with
  | none => .error .valueError
  | some v => .ok v

/-- The neutral default detail scores backfilled by `_llm_validation`. -/
def llmDefaultDetails : List (Str × Int) :=
  [ ( "completeness".data, 50), ( "bestPractices".data, 50), ( "performance".data, 50),
    ( "accessibility".data, 50), ( "security".data, 50)]

/-- `_llm_validation` of `validator.py` after the model call: parse the
response (raising `ValueError` on unparseable text), replace a non-dict result
by `{}`, then `setdefault` every missing top-level field. -/
def llm_validation (decoded : Option JsonTop) : Except PyError Report := do
  let v ← parse_json_response decoded
  match v with
  | .notDict =>
    pure { validationStatus := "UNKNOWN".data, score := 50, issues := [],
           suggestions := [], details := llmDefaultDetails }
  | .dict j =>
    pure { validationStatus := j.validationStatus.getD "UNKNOWN".data
           score := j.score.getD 50
           issues := j.issues.getD []
           suggestions := j.suggestions.getD []
           details := j.details.getD llmDefaultDetails }

/-- `ComponentValidator.process(input_data)`: automated validation, then (when
`deep_validation`, default on) the secondary assessment and the merge. -/
def validator_process (files : Files) (deep : Bool) (decoded : Option JsonTop) :
    Except PyError Report := do
  let auto ← automated_validation files
  if deep then
    let llm ← llm_validation decoded
    pure (merge_validations auto llm)
  else
    pure auto

/-- Observable trace of `retry_async` (`app/utils/retry.py`) around an
operation that fails on every invocation: number of `func` calls, the delays
passed to `asyncio.sleep` in order, and which attempt's exception is re-raised
(`none` when the loop body never runs).  Delays are exact rationals standing
for the Python floats `delay`, `delay*backoff`, …. -/
structure RetryTrace where
  calls : Nat
  sleeps : List ℚ
  raised : Option Nat
deriving DecidableEq

/-- The `while attempt <= max_attempts` loop of `retry_async` for an
always-failing operation, from loop state `(attempt, current_delay)`. -/
def retryAux (attempt maxAttempts : Nat) (currentDelay backoff : ℚ) : RetryTrace :=
  if attempt ≤ maxAttempts then
    if attempt = maxAttempts then
      { calls := 1, sleeps := [], raised := some attempt }
    else
      let r := retryAux (attempt + 1) maxAttempts (currentDelay * backoff) backoff
      { calls := r.calls + 1, sleeps := currentDelay :: r.sleeps, raised := r.raised }
  else
    { calls := 0, sleeps := [], raised := none }
termination_by maxAttempts + 1 - attempt
decreasing_by omega

/-- `retry_async(max_attempts, delay, backoff)` wrapping an always-failing
operation: the loop starts at `attempt = 1`, `current_delay = delay`. -/
def retry_async_allfail (max_attempts : Nat) (delay backoff : ℚ) : RetryTrace :=
  retryAux 1 max_attempts delay backoff

/-- The in-pipeline status updates of `_process_request`
(`orchestrator.py` 67-139), in order. -/
def progressSchedule : List (String × Nat) :=
  [ ( "processing", 10), ( "processing", 30), ( "processing", 50),
    ( "processing", 80), ( "completed", 100)]

/-- The (status, progress) pairs written for one job id over its lifetime:
`enqueue` writes `("queued", 0)`; `_process_request` then writes the schedule;
an exception raised after `k ≤ 4` in-pipeline updates triggers the handler's
`_update_status(request_id, "failed", 0, str(e))`.  `failAfter = none` is the
fully successful run. -/
def jobStatusTrace (failAfter : Option Nat) : List (String × Nat) :=
  match failAfter with
  | none => ( "queued", 0) :: progressSchedule
  | some k => ( "queued", 0) :: (progressSchedule.take k ++ [( "failed", 0)])

/-- Python `str.title()` (ASCII): a letter is upper-cased after a non-letter
and lower-cased after a letter. -/
def pyTitleAux : Bool → Str → Str
  | _, [] => []
  | prevAlpha, c :: t =>
    (if c.isAlpha then (if prevAlpha then c.toLower else c.toUpper) else c) ::
      pyTitleAux c.isAlpha t

/-- Python `str.title()`. -/
def pyTitle (s : Str) : Str := pyTitleAux false s

/-- `f"{component_name.title().replace('-', '')}Model"`. -/
def componentClassName (component_name : Str) : Str :=
  pyReplace "-".data [] (pyTitle component_name) ++ "Model".data

/-- `f"{app_id}/components/{sub_folder}/{component_name}"`. -/
def resourceTypeOf (app_id sub_folder component_name : Str) : Str :=
  app_id ++ "/components/".data ++ sub_folder ++ "/".data ++ component_name

/-- `_generate_fallback_content(file_type, component_name, package_name,
app_id, sub_folder)` of `component_generator.py`.  Note: there is no branch
for `'dialog'`, which falls through to the final `return ""`. -/
def generate_fallback_content
    (file_type component_name package_name app_id sub_folder : Str) : Str :=
  let resource_type := resourceTypeOf app_id sub_folder component_name
  if file_type = "htl".data then
    "<div data-sly-use.model=\"".data ++ package_name ++ ".core.models.".data ++
      componentClassName component_name ++ "\" class=\"".data ++ component_name ++
      "\">\n    <h2 data-sly-test=\"$\x7bmodel.title\x7d\">$\x7bmodel.title\x7d</h2>\n    <p data-sly-test=\"$\x7bmodel.description\x7d\">$\x7bmodel.description\x7d</p>\n</div>".data
  else if file_type = "slingModel".data then
    "package ".data ++ package_name ++ ".core.models;\n\nimport org.apache.sling.api.resource.Resource;\nimport org.apache.sling.models.annotations.Model;\nimport org.apache.sling.models.annotations.Default;\nimport org.apache.sling.models.annotations.Optional;\nimport org.apache.sling.models.annotations.injectorspecific.ValueMapValue;\n\n/**\n * Sling Model for ".data ++
      pyReplace "-".data " ".data (pyTitle component_name) ++
      " component\n */\n@Model(adaptables = Resource.class, resourceType = \"".data ++
      resource_type ++
      "\")\npublic class ".data ++ componentClassName component_name ++
      " \x7b\n    \n    @ValueMapValue\n    @Optional\n    @Default(values = \"Default Title\")\n    private String title;\n    \n    @ValueMapValue\n    @Optional\n    private String description;\n    \n    public String getTitle() \x7b\n        return title;\n    \x7d\n    \n    public String getDescription() \x7b\n        return description;\n    \x7d\n\x7d".data
  else if file_type = "contentXml".data then
    "<?xml version=\"1.0\" encoding=\"UTF-8\"?>\n<jcr:root xmlns:cq=\"http://www.day.com/jcr/cq/1.0\" xmlns:jcr=\"http://www.jcp.org/jcr/1.0\" xmlns:sling=\"http://sling.apache.org/jcr/sling/1.0\"\n    jcr:primaryType=\"cq:Component\"\n    jcr:title=\"".data ++
      pyReplace "-".data " ".data (pyTitle component_name) ++
      "\"\n    sling:resourceType=\"".data ++ resource_type ++
      "\"\n    componentGroup=\"Custom\"/>".data
  else []

/-- Python dict assignment `generated[file] = value`: update in place, or
append for a new key. -/
def setFile : Files → Str → FileVal → Files
  | [], k, v => [(k, v)]
  | p :: t, k, v => if p.1 = k then (k, v) :: t else p :: setFile t k v

/-- The `required_files` list of `_post_process_generation`. -/
def requiredGenFiles : List Str :=
  [ "slingModel".data, "htl".data, "dialog".data, "contentXml".data]

/-- One iteration of the required-file fallback loop of
`_post_process_generation`: `if not generated.get(file): generated[file] =
self._generate_fallback_content(...)`. -/
def fallbackStep (component_name package_name app_id sub_folder : Str)
    (acc : Files) (f : Str) : Files :=
  if ((getFile acc f).map FileVal.truthy).getD false then acc
  else
    setFile acc f
      (.str (generate_fallback_content f component_name package_name app_id sub_folder))

/-- The required-file fallback loop of `_post_process_generation`
(`component_generator.py` 305-311): for each required key whose value is
missing or falsy, substitute the synthesized fallback content. -/
def ensure_required_files (generated : Files)
    (component_name package_name app_id sub_folder : Str) : Files :=
  requiredGenFiles.foldl (fallbackStep component_name package_name app_id sub_folder)
    generated

/-- Executable non-decreasing check on a progress sequence. -/
def nondecreasing : List Nat → Bool
  | [] => true
  | [_] => true
  | a :: b :: t => a ≤ b && nondecreasing (b :: t)

theorem isPrefixOf_eq_true_iff {l₁ l₂ : Str} : l₁.isPrefixOf l₂ = true ↔ l₁ <+: l₂ := by
  induction l₁ generalizing l₂ with
  | nil => simp [List.isPrefixOf]
  | cons a t ih =>
    cases l₂ with
    | nil => simp [List.isPrefixOf]
    | cons b u =>
      simp [List.isPrefixOf, ih, List.cons_prefix_cons, Bool.and_eq_true, beq_iff_eq]

theorem subB_eq_true_iff {n h : Str} : subB n h = true ↔ n <:+: h := by
  simp only [subB, List.any_eq_true, List.mem_tails, isPrefixOf_eq_true_iff]
  constructor
  · rintro ⟨t, hts, hpt⟩
    exact List.infix_iff_prefix_suffix.2 ⟨_, hpt, hts⟩
  · intro hinf
    rcases List.infix_iff_prefix_suffix.1 hinf with ⟨t, hpt, hts⟩
    exact ⟨t, hts, hpt⟩

theorem append_ne_of_not_prefix {a s t : Str} (h : ¬ a <+: t) : a ++ s ≠ t := by
  intro he
  exact h (he ▸ List.prefix_append a s)

theorem append_ne_append_of_not_prefix {a b : Str} (h1 : ¬ a <+: b) (h2 : ¬ b <+: a)
    (s u : Str) : a ++ s ≠ b ++ u := by
  intro he
  rcases List.append_eq_append_iff.1 he with ⟨a', rfl, _⟩ | ⟨c', rfl, _⟩
  · exact h1 ⟨a', rfl⟩
  · exact h2 ⟨c', rfl⟩

theorem count_concatAll (x : Str) (l : List (List Str)) :
    (concatAll l).count x = (l.map (List.count x)).sum := by
  induction l with
  | nil => rfl
  | cons h t ih =>
    show (h ++ concatAll t).count x = _
    rw [List.count_append, ih]
    simp

theorem mem_concatAll {x : Str} {l : List (List Str)} :
    x ∈ concatAll l ↔ ∃ s ∈ l, x ∈ s := by
  induction l with
  | nil => simp [concatAll]
  | cons h t ih =>
    show x ∈ h ++ concatAll t ↔ _
    simp [List.mem_append, ih]

theorem pyClamp_bounds (v : Int) : 0 ≤ pyClamp v ∧ pyClamp v ≤ 100 := by
  unfold pyClamp
  omega

theorem overall_score_bounds {c b p a s : Int}
    (hc : 0 ≤ c ∧ c ≤ 100) (hb : 0 ≤ b ∧ b ≤ 100) (hp : 0 ≤ p ∧ p ≤ 100)
    (ha : 0 ≤ a ∧ a ≤ 100) (hs : 0 ≤ s ∧ s ≤ 100) :
    0 ≤ overall_score c b p a s ∧ overall_score c b p a s ≤ 100 := by
  unfold overall_score
  constructor
  · exact Int.fdiv_nonneg (by omega) (by norm_num)
  · rw [Int.fdiv_eq_ediv _ (by norm_num)]
    have h1 : 30 * c + 25 * b + 15 * p + 15 * a + 15 * s ≤ 10000 := by omega
    have h2 := Int.ediv_le_ediv (a := 30 * c + 25 * b + 15 * p + 15 * a + 15 * s)
      (b := 10000) (c := 100) (by norm_num) h1
    norm_num at h2
    exact h2

theorem int_half_bounds {x y : Int} (hx : 0 ≤ x ∧ x ≤ 100) (hy : 0 ≤ y ∧ y ≤ 100) :
    0 ≤ Int.fdiv (x + y) 2 ∧ Int.fdiv (x + y) 2 ≤ 100 := by
  constructor
  · exact Int.fdiv_nonneg (by omega) (by norm_num)
  · rw [Int.fdiv_eq_ediv _ (by norm_num)]
    have h1 : x + y ≤ 200 := by omega
    have h2 := Int.ediv_le_ediv (a := x + y) (b := 200) (c := 2) (by norm_num) h1
    norm_num at h2
    exact h2

theorem detailsGet_bounds {d : List (Str × Int)} (hd : ∀ kv ∈ d, 0 ≤ kv.2 ∧ kv.2 ≤ 100)
    (k : Str) : 0 ≤ detailsGet d k ∧ detailsGet d k ≤ 100 := by
  unfold detailsGet
  cases hf : d.find? (fun p => p.1 = k) with
  | none => norm_num
  | some p =>
    have := hd p (List.mem_of_find?_eq_some hf)
    simpa using this

theorem automated_validation_shape {files : Files} {r : Report}
    (h : automated_validation files = .ok r) :
    ∃ ji pi ci vi ht, javaStep files = .ok ji ∧
      validate_package_declarations files = .ok pi ∧
      check_compilation_errors files = .ok ci ∧
      check_security_vulnerabilities files = .ok vi ∧
      htlBranch files = .ok ht ∧
      r = assembleReport files ji pi ci vi ht := by
  unfold automated_validation at h
  cases h1 : javaStep files with
  | error e => rw [h1] at h; exact absurd h (by simp [Bind.bind, Except.bind])
  | ok ji =>
    rw [h1] at h
    cases h2 : validate_package_declarations files with
    | error e => rw [h2] at h; exact absurd h (by simp [Bind.bind, Except.bind])
    | ok pi =>
      rw [h2] at h
      cases h3 : check_compilation_errors files with
      | error e => rw [h3] at h; exact absurd h (by simp [Bind.bind, Except.bind])
      | ok ci =>
        rw [h3] at h
        cases h4 : check_security_vulnerabilities files with
        | error e => rw [h4] at h; exact absurd h (by simp [Bind.bind, Except.bind])
        | ok vi =>
          rw [h4] at h
          cases h5 : htlBranch files with
          | error e => rw [h5] at h; exact absurd h (by simp [Bind.bind, Except.bind])
          | ok ht =>
            rw [h5] at h
            simp [Bind.bind, Except.bind, pure, Except.pure] at h
            exact ⟨ji, pi, ci, vi, ht, rfl, rfl, rfl, rfl, rfl, h.symm⟩

theorem assembleReport_details (files : Files) (ji pi ci vi : List Str)
    (ht : Option HtlFlags) :
    (assembleReport files ji pi ci vi ht).details =
      [ ( "completeness".data,
          pyClamp (completenessRaw files ci (slingBranch files))),
        ( "bestPractices".data,
          pyClamp (bestPracticesRaw ji pi ht (slingBranch files) (dialogBranch files)
            ((clientlibsBranch files).getD ([], [])).2)),
        ( "performance".data,
          pyClamp (performanceRaw ht ((clientlibsBranch files).getD ([], [])).2)),
        ( "accessibility".data,
          pyClamp (accessibilityRaw ht (dialogBranch files)
            ((clientlibsBranch files).getD ([], [])).1)),
        ( "security".data,
          pyClamp (securityRaw vi (slingBranch files)
            (subB "innerHTML".data (allContentJoined files))
            (subB "eval(".data (allContentJoined files))))] := rfl

theorem assembleReport_score (files : Files) (ji pi ci vi : List Str)
    (ht : Option HtlFlags) :
    (assembleReport files ji pi ci vi ht).score =
      overall_score
        (pyClamp (completenessRaw files ci (slingBranch files)))
        (pyClamp (bestPracticesRaw ji pi ht (slingBranch files) (dialogBranch files)
          ((clientlibsBranch files).getD ([], [])).2))
        (pyClamp (performanceRaw ht ((clientlibsBranch files).getD ([], [])).2))
        (pyClamp (accessibilityRaw ht (dialogBranch files)
          ((clientlibsBranch files).getD ([], [])).1))
        (pyClamp (securityRaw vi (slingBranch files)
          (subB "innerHTML".data (allContentJoined files))
          (subB "eval(".data (allContentJoined files)))) := rfl

theorem assembleReport_status (files : Files) (ji pi ci vi : List Str)
    (ht : Option HtlFlags) :
    (assembleReport files ji pi ci vi ht).validationStatus =
      (if 70 ≤ (assembleReport files ji pi ci vi ht).score then "PASS".data
       else "FAIL".data) := rfl

theorem assembleReport_props (files : Files) (ji pi ci vi : List Str) (ht : Option HtlFlags) :
    (∀ kv ∈ (assembleReport files ji pi ci vi ht).details, 0 ≤ kv.2 ∧ kv.2 ≤ 100) ∧
      (0 ≤ (assembleReport files ji pi ci vi ht).score ∧
        (assembleReport files ji pi ci vi ht).score ≤ 100) ∧
      ((assembleReport files ji pi ci vi ht).validationStatus = "PASS".data ↔
        70 ≤ (assembleReport files ji pi ci vi ht).score) := by
  refine ⟨?_, ?_, ?_⟩
  · rw [assembleReport_details]
    intro kv hkv
    simp only [List.mem_cons, List.not_mem_nil, or_false] at hkv
    rcases hkv with rfl | rfl | rfl | rfl | rfl <;> exact pyClamp_bounds _
  · rw [assembleReport_score]
    exact overall_score_bounds (pyClamp_bounds _) (pyClamp_bounds _) (pyClamp_bounds _)
      (pyClamp_bounds _) (pyClamp_bounds _)
  · rw [assembleReport_status]
    split
    · next hle => simpa using hle
    · next hlt =>
      constructor
      · intro hfalse
        exact absurd hfalse (by decide)
      · intro hle
        exact absurd hle hlt

/-- Claim C10: on the empty artifact bundle the deterministic rubric reports
completeness 25 (three required files, −25 each), 100 in every other category,
overall score 77 and validationStatus "PASS" — an entirely empty bundle passes
the rubric. -/
theorem empty_bundle_passes :
    automated_validation [] = .ok
      { validationStatus := "PASS".data
        score := 77
        issues := [ "Missing or empty required files: slingModel, htl, dialog".data]
        suggestions := []
        details := [ ( "completeness".data, 25), ( "bestPractices".data, 100),
          ( "performance".data, 100), ( "accessibility".data, 100),
          ( "security".data, 100)] } := rfl

/-- Auxiliary unfolding of the always-failing retry loop: from state
`(attempt, current_delay)` with `attempt ≤ maxAttempts`, the loop performs
`maxAttempts - attempt + 1` calls, sleeps the geometric delays, and re-raises
the error of the final attempt. -/
theorem retryAux_spec (n : Nat) (b : ℚ) :
    ∀ (a : Nat) (d : ℚ), a ≤ n →
      retryAux a n d b =
        { calls := n - a + 1,
          sleeps := (List.range (n - a)).map fun i => d * b ^ i,
          raised := some n } := by
  intro a d ha
  obtain ⟨k, hk⟩ : ∃ k, n - a = k := ⟨_, rfl⟩
  induction k generalizing a d with
  | zero =>
    have haeq : a = n := by omega
    subst haeq
    rw [retryAux]
    simp [hk]
  | succ k ih =>
    have hlt : a < n := by omega
    rw [retryAux]
    rw [if_pos ha, if_neg (by omega)]
    rw [ih (a + 1) (d * b) (by omega) (by omega)]
    have h1 : n - a = (n - (a + 1)) + 1 := by omega
    have h2 : n - (a + 1) = k := by omega
    simp only [h1, h2, List.range_succ_eq_map, List.map_cons, List.map_map,
      RetryTrace.mk.injEq]
    refine ⟨trivial, ?_, trivial⟩
    congr 1
    · simp
    · apply List.map_congr_left
      intro i _
      simp [Function.comp]
      ring

/-- Claim C3: an operation wrapped by `retry_async(max_attempts, delay,
backoff)` that fails on every invocation is invoked exactly `max_attempts`
times, the slept delays form the geometric sequence `delay * backoff ^ i` for
`i < max_attempts - 1`, and the error of the last attempt is re-raised. -/
theorem retry_allfail_spec (max_attempts : Nat) (delay backoff : ℚ)
    (h : 1 ≤ max_attempts) :
    (retry_async_allfail max_attempts delay backoff).calls = max_attempts ∧
      (retry_async_allfail max_attempts delay backoff).sleeps =
        (List.range (max_attempts - 1)).map (fun i => delay * backoff ^ i) ∧
      (retry_async_allfail max_attempts delay backoff).raised = some max_attempts := by
  unfold retry_async_allfail
  rw [retryAux_spec max_attempts backoff 1 delay h]
  refine ⟨?_, rfl, rfl⟩
  show max_attempts - 1 + 1 = max_attempts
  omega

/-- Witness for C3 at `max_attempts = 3`, `delay = 1`, `backoff = 2`. -/
theorem retry_allfail_spec_witness :
    1 ≤ 3 ∧
      ((retry_async_allfail 3 1 2).calls = 3 ∧
        (retry_async_allfail 3 1 2).sleeps =
          (List.range (3 - 1)).map (fun i => (1 : ℚ) * (2 : ℚ) ^ i) ∧
        (retry_async_allfail 3 1 2).raised = some 3) :=
  ⟨by norm_num, retry_allfail_spec 3 1 2 (by norm_num)⟩

/-- Claim C2, counterexample: a job that fails right after the first
in-pipeline update writes progress 0, 10 and then 0 again — the progress
sequence decreases on failure (the failure handler writes progress 0). -/
theorem progress_resets_on_failure :
    (jobStatusTrace (some 1)).map Prod.snd = [0, 10, 0] ∧
      nondecreasing [0, 10, 0] = false := ⟨rfl, rfl⟩

/-- Claim C2 as amended: for a completed run the per-job progress sequence is
non-decreasing and ends at exactly 100 with status "completed"; for a run that
fails after `k ≤ 4` in-pipeline updates, the sequence is non-decreasing up to
(excluding) the failure write, every value stays below 100, and the final
write is `("failed", 0)` — resetting progress to 0 rather than keeping it
non-decreasing. -/
theorem job_progress_spec (failAfter : Option Nat) :
    (failAfter = none →
      nondecreasing ((jobStatusTrace none).map Prod.snd) = true ∧
        (jobStatusTrace none).getLast? = some ( "completed", 100)) ∧
    (∀ k, failAfter = some k → k ≤ 4 →
      nondecreasing (((jobStatusTrace (some k)).dropLast).map Prod.snd) = true ∧
        (jobStatusTrace (some k)).getLast? = some ( "failed", 0) ∧
        ∀ p ∈ (jobStatusTrace (some k)).map Prod.snd, p < 100) := by
  constructor
  · intro _
    exact ⟨by decide, by decide⟩
  · intro k _ hk4
    interval_cases k <;> exact ⟨by decide, by decide, by decide⟩

/-- Witness for C2 (amended) at a failure after two in-pipeline updates. -/
theorem job_progress_spec_witness :
    nondecreasing (((jobStatusTrace (some 2)).dropLast).map Prod.snd) = true ∧
      (jobStatusTrace (some 2)).getLast? = some ( "failed", 0) ∧
      ∀ p ∈ (jobStatusTrace (some 2)).map Prod.snd, p < 100 :=
  (job_progress_spec (some 2)).2 2 rfl (by norm_num)

theorem getFile_setFile_self (fs : Files) (k : Str) (v : FileVal) :
    getFile (setFile fs k v) k = some v := by
  induction fs with
  | nil => simp [setFile, getFile]
  | cons p t ih =>
    by_cases h : p.1 = k
    · simp [setFile, h, getFile]
    · simp only [setFile, if_neg h]
      simp only [getFile, List.find?] at ih ⊢
      rw [show (decide (p.1 = k)) = false by simpa using h]
      exact ih

theorem getFile_setFile_other (fs : Files) {k k' : Str} (v : FileVal) (h : k' ≠ k) :
    getFile (setFile fs k v) k' = getFile fs k' := by
  induction fs with
  | nil => simp [setFile, getFile, List.find?, show ¬ (k = k') from fun he => h he.symm]
  | cons p t ih =>
    by_cases hp : p.1 = k
    · subst hp
      simp only [setFile, if_pos rfl]
      simp only [getFile, List.find?]
      rw [show (decide (p.1 = k')) = false by simp; exact fun he => h he.symm]
    · simp only [setFile, if_neg hp]
      simp only [getFile, List.find?] at ih ⊢
      cases hd : decide (p.1 = k') with
      | true => rfl
      | false => exact ih

theorem fallbackStep_get_self {acc : Files} {f : Str} (cn pn aid sf : Str)
    (h : ((getFile acc f).map FileVal.truthy).getD false = false) :
    getFile (fallbackStep cn pn aid sf acc f) f =
      some (.str (generate_fallback_content f cn pn aid sf)) := by
  unfold fallbackStep
  rw [if_neg (by simp [h])]
  exact getFile_setFile_self _ _ _

theorem fallbackStep_get_other {acc : Files} {f f' : Str} (cn pn aid sf : Str)
    (h : f' ≠ f) :
    getFile (fallbackStep cn pn aid sf acc f) f' = getFile acc f' := by
  unfold fallbackStep
  split
  · rfl
  · exact getFile_setFile_other _ _ h

/-- Claim C9, counterexample: `_generate_fallback_content` has no branch for
`'dialog'` and returns the empty string, so a bundle missing its dialog is
"repaired" to an empty dialog — not a non-empty synthesized value. -/
theorem dialog_fallback_is_empty :
    generate_fallback_content "dialog".data "component".data
        "com.adobe.aem.guides.wknd".data "wknd".data "wkndai".data = [] ∧
      getFile (ensure_required_files [] "component".data
          "com.adobe.aem.guides.wknd".data "wknd".data "wkndai".data) "dialog".data =
        some (.str []) := ⟨rfl, rfl⟩

/-- Claim C9 as amended: for each required generator artifact that is absent or
falsy, the post-process loop substitutes
`_generate_fallback_content(file, component_name, package_name, app_id,
sub_folder)` — a deterministic function of the component identity and
configured defaults — which is non-empty for `slingModel`, `htl` and
`contentXml`, but the empty string for `dialog`. -/
theorem fallback_fills_required (g : Files) (cn pn aid sf f : Str)
    (hf : f ∈ requiredGenFiles)
    (hmiss : ((getFile g f).map FileVal.truthy).getD false = false) :
    getFile (ensure_required_files g cn pn aid sf) f =
      some (.str (generate_fallback_content f cn pn aid sf)) ∧
      (f ≠ "dialog".data → generate_fallback_content f cn pn aid sf ≠ []) ∧
      (f = "dialog".data → generate_fallback_content f cn pn aid sf = []) := by
  have hsteps : ∀ g', ensure_required_files g' cn pn aid sf =
      fallbackStep cn pn aid sf (fallbackStep cn pn aid sf (fallbackStep cn pn aid sf
        (fallbackStep cn pn aid sf g' "slingModel".data) "htl".data) "dialog".data)
        "contentXml".data := fun _ => rfl
  simp only [requiredGenFiles, List.mem_cons, List.not_mem_nil, or_false] at hf
  rcases hf with rfl | rfl | rfl | rfl
  · refine ⟨?_, fun _ => ?_, fun hc => absurd hc (by decide)⟩
    · rw [hsteps, fallbackStep_get_other _ _ _ _ (by decide),
        fallbackStep_get_other _ _ _ _ (by decide),
        fallbackStep_get_other _ _ _ _ (by decide), fallbackStep_get_self _ _ _ _ hmiss]
    · show ¬ ("package ".data ++ _ = [])
      intro hc
      rw [List.append_eq_nil] at hc
      exact absurd hc.1 (by decide)
  · refine ⟨?_, fun _ => ?_, fun hc => absurd hc (by decide)⟩
    · rw [hsteps, fallbackStep_get_other _ _ _ _ (by decide),
        fallbackStep_get_other _ _ _ _ (by decide), fallbackStep_get_self _ _ _ _ ?hm]
      case hm =>
        rw [fallbackStep_get_other _ _ _ _ (by decide)]
        exact hmiss
    · show ¬ ("<div data-sly-use.model=\"".data ++ _ = [])
      intro hc
      rw [List.append_eq_nil] at hc
      exact absurd hc.1 (by decide)
  · refine ⟨?_, fun hc => absurd rfl hc, fun _ => rfl⟩
    rw [hsteps, fallbackStep_get_other _ _ _ _ (by decide), fallbackStep_get_self _ _ _ _ ?hm]
    case hm =>
      rw [fallbackStep_get_other _ _ _ _ (by decide),
        fallbackStep_get_other _ _ _ _ (by decide)]
      exact hmiss
  · refine ⟨?_, fun _ => ?_, fun hc => absurd hc (by decide)⟩
    · rw [hsteps, fallbackStep_get_self _ _ _ _ ?hm]
      case hm =>
        rw [fallbackStep_get_other _ _ _ _ (by decide),
          fallbackStep_get_other _ _ _ _ (by decide),
          fallbackStep_get_other _ _ _ _ (by decide)]
        exact hmiss
    · show ¬ ("<?xml version=\"1.0\" encoding=\"UTF-8\"?>".data ++ _ = [])
      intro hc
      rw [List.append_eq_nil] at hc
      exact absurd hc.1 (by decide)

/-- Witness for C9 (amended) at the `htl` key over an empty generator output
with the configured defaults. -/
theorem fallback_fills_required_witness :
    getFile (ensure_required_files [] "component".data "com.adobe.aem.guides.wknd".data
        "wknd".data "wkndai".data) "htl".data =
      some (.str (generate_fallback_content "htl".data "component".data
        "com.adobe.aem.guides.wknd".data "wknd".data "wkndai".data)) ∧
      ( "htl".data ≠ "dialog".data →
        generate_fallback_content "htl".data "component".data
          "com.adobe.aem.guides.wknd".data "wknd".data "wkndai".data ≠ []) ∧
      ( "htl".data = "dialog".data →
        generate_fallback_content "htl".data "component".data
          "com.adobe.aem.guides.wknd".data "wknd".data "wkndai".data = []) :=
  fallback_fills_required [] "component".data "com.adobe.aem.guides.wknd".data
    "wknd".data "wkndai".data "htl".data (by decide) rfl

/-- Claim C4: `_merge_validations` produces the deduplicated set-union of the
two issue lists (and of the two suggestion lists; CPython's `list(set(...))`
leaves the order unspecified, so the union is stated order-irrelevantly via
membership and duplicate-freedom), per-category floor averages with missing
categories defaulting to 0 (`detailsGet`), the floor average of the two
overall scores, and a status recomputed from the merged overall score with the
≥ 70 rule — never taken from the input statuses. -/
theorem merge_validations_spec (a b : Report) :
    (merge_validations a b).issues.Nodup ∧
      (∀ x, x ∈ (merge_validations a b).issues ↔ x ∈ a.issues ∨ x ∈ b.issues) ∧
      (merge_validations a b).suggestions.Nodup ∧
      (∀ x, x ∈ (merge_validations a b).suggestions ↔
        x ∈ a.suggestions ∨ x ∈ b.suggestions) ∧
      (merge_validations a b).details = categories.map (fun k =>
        (k, Int.fdiv (detailsGet a.details k + detailsGet b.details k) 2)) ∧
      (merge_validations a b).score = Int.fdiv (a.score + b.score) 2 ∧
      ((merge_validations a b).validationStatus = "PASS".data ↔
        70 ≤ Int.fdiv (a.score + b.score) 2) := by
  refine ⟨List.nodup_dedup _, ?_, List.nodup_dedup _, ?_, rfl, rfl, ?_⟩
  · intro x
    simp [merge_validations, List.mem_dedup, List.mem_append]
  · intro x
    simp [merge_validations, List.mem_dedup, List.mem_append]
  · show (if 70 ≤ Int.fdiv (a.score + b.score) 2 then "PASS".data else "FAIL".data) =
      "PASS".data ↔ _
    split
    · next hle => simpa using hle
    · next hlt =>
      constructor
      · intro hfalse
        exact absurd hfalse (by decide)
      · intro hle
        exact absurd hle hlt

/-- Claim C5, counterexample: a secondary response that `json.loads` cannot
parse makes `parse_json_response` raise `ValueError`, which propagates out of
`ComponentValidator.process` — the merge is not completed with backfilled
defaults. -/
theorem malformed_secondary_raises :
    validator_process [] true none = .error .valueError := rfl

/-- Claim C5 as amended: when the secondary response parses as JSON,
`_llm_validation` never raises — a non-dict payload is replaced by `{}` and
every missing field is backfilled (`score` 50, empty issue/suggestion lists,
all five category scores 50, status "UNKNOWN") and the merge completes; but a
response that is not parseable as JSON at all raises `ValueError` out of the
validation call (see the counterexample). -/
theorem secondary_backfill_spec (files : Files) (auto : Report) (v : JsonTop)
    (h : automated_validation files = .ok auto) :
    ∃ rep, llm_validation (some v) = .ok rep ∧
      validator_process files true (some v) = .ok (merge_validations auto rep) ∧
      (v = .notDict → rep.score = 50 ∧ rep.issues = [] ∧ rep.suggestions = [] ∧
        rep.details = llmDefaultDetails ∧ rep.validationStatus = "UNKNOWN".data) ∧
      (∀ j, v = .dict j →
        (j.score = none → rep.score = 50) ∧
        (j.issues = none → rep.issues = []) ∧
        (j.suggestions = none → rep.suggestions = []) ∧
        (j.details = none → rep.details = llmDefaultDetails) ∧
        (j.validationStatus = none → rep.validationStatus = "UNKNOWN".data)) := by
  cases v with
  | notDict =>
    refine ⟨_, rfl, ?_, ?_, ?_⟩
    · unfold validator_process
      rw [h]
      rfl
    · intro _
      exact ⟨rfl, rfl, rfl, rfl, rfl⟩
    · intro j hj
      cases hj
  | dict j =>
    refine ⟨_, rfl, ?_, ?_, ?_⟩
    · unfold validator_process
      rw [h]
      rfl
    · intro hj
      cases hj
    · intro j' hj
      cases hj
      refine ⟨?_, ?_, ?_, ?_, ?_⟩ <;> intro hnone <;>
        simp [llm_validation, parse_json_response, pure, Except.pure, hnone]

/-- Witness for C5 (amended): the empty bundle's automated report merged with a
parsed-but-non-dict secondary payload. -/
theorem secondary_backfill_spec_witness :
    ∃ rep, llm_validation (some .notDict) = .ok rep ∧
      validator_process [] true (some .notDict) = .ok
        (merge_validations
          { validationStatus := "PASS".data
            score := 77
            issues := [ "Missing or empty required files: slingModel, htl, dialog".data]
            suggestions := []
            details := [ ( "completeness".data, 25), ( "bestPractices".data, 100),
              ( "performance".data, 100), ( "accessibility".data, 100),
              ( "security".data, 100)] } rep) ∧
      (JsonTop.notDict = .notDict → rep.score = 50 ∧ rep.issues = [] ∧
        rep.suggestions = [] ∧ rep.details = llmDefaultDetails ∧
        rep.validationStatus = "UNKNOWN".data) ∧
      (∀ j, JsonTop.notDict = .dict j →
        (j.score = none → rep.score = 50) ∧
        (j.issues = none → rep.issues = []) ∧
        (j.suggestions = none → rep.suggestions = []) ∧
        (j.details = none → rep.details = llmDefaultDetails) ∧
        (j.validationStatus = none → rep.validationStatus = "UNKNOWN".data)) :=
  secondary_backfill_spec [] _ .notDict rfl

/-- The secondary assessment's numeric fields all lie in [0, 100] — the range
the response schema demands of the model. -/
def SecondaryInRange (decoded : Option JsonTop) : Prop :=
  ∀ j, decoded = some (.dict j) →
    (∀ sc, j.score = some sc → 0 ≤ sc ∧ sc ≤ 100) ∧
    (∀ d, j.details = some d → ∀ kv ∈ d, 0 ≤ kv.2 ∧ kv.2 ≤ 100)

theorem llmDefaultDetails_bounds : ∀ kv ∈ llmDefaultDetails, 0 ≤ kv.2 ∧ kv.2 ≤ 100 := by
  decide

theorem llm_validation_ranges {decoded : Option JsonTop} {rep : Report}
    (h : llm_validation decoded = .ok rep) (hs : SecondaryInRange decoded) :
    (0 ≤ rep.score ∧ rep.score ≤ 100) ∧
      ∀ k, 0 ≤ detailsGet rep.details k ∧ detailsGet rep.details k ≤ 100 := by
  cases decoded with
  | none => exact absurd h (by simp [llm_validation, parse_json_response, Bind.bind, Except.bind])
  | some v =>
    cases v with
    | notDict =>
      simp only [llm_validation, parse_json_response, Bind.bind, Except.bind, pure,
        Except.pure, Except.ok.injEq] at h
      subst h
      exact ⟨by norm_num, detailsGet_bounds llmDefaultDetails_bounds⟩
    | dict j =>
      simp only [llm_validation, parse_json_response, Bind.bind, Except.bind, pure,
        Except.pure, Except.ok.injEq] at h
      subst h
      constructor
      · cases hj : j.score with
        | none => simp [hj]
        | some sc =>
          have := ((hs j rfl).1 sc hj)
          simpa [hj] using this
      · cases hj : j.details with
        | none => simpa [hj] using detailsGet_bounds llmDefaultDetails_bounds
        | some d =>
          have := (hs j rfl).2 d hj
          simpa [hj] using detailsGet_bounds this

theorem merge_validations_ranges {a b : Report}
    (had : ∀ kv ∈ a.details, 0 ≤ kv.2 ∧ kv.2 ≤ 100)
    (has : 0 ≤ a.score ∧ a.score ≤ 100) (hbs : 0 ≤ b.score ∧ b.score ≤ 100)
    (hbd : ∀ k, 0 ≤ detailsGet b.details k ∧ detailsGet b.details k ≤ 100) :
    (∀ kv ∈ (merge_validations a b).details, 0 ≤ kv.2 ∧ kv.2 ≤ 100) ∧
      0 ≤ (merge_validations a b).score ∧ (merge_validations a b).score ≤ 100 := by
  constructor
  · intro kv hkv
    simp only [merge_validations, List.mem_map] at hkv
    obtain ⟨k, _, rfl⟩ := hkv
    exact int_half_bounds (detailsGet_bounds had k) (hbd k)
  · exact int_half_bounds has hbs

/-- Claim C1 as amended: every report of the automated rubric alone has all
five category scores and the overall score in [0, 100] and status PASS iff
overall ≥ 70; the merged report always satisfies the PASS-iff-≥70 rule, and
its scores lie in [0, 100] provided the secondary assessment's numeric fields
lie in [0, 100] (the merge itself does not clamp — see the counterexample). -/
theorem validation_report_ranges (files : Files) (deep : Bool)
    (decoded : Option JsonTop) (r : Report)
    (h : validator_process files deep decoded = .ok r) (hs : SecondaryInRange decoded) :
    (∀ kv ∈ r.details, 0 ≤ kv.2 ∧ kv.2 ≤ 100) ∧ 0 ≤ r.score ∧ r.score ≤ 100 ∧
      (r.validationStatus = "PASS".data ↔ 70 ≤ r.score) := by
  unfold validator_process at h
  cases hauto : automated_validation files with
  | error e =>
    rw [hauto] at h
    exact absurd h (by simp [Bind.bind, Except.bind])
  | ok auto =>
    rw [hauto] at h
    simp only [Bind.bind, Except.bind] at h
    obtain ⟨ji, pi, ci, vi, ht, _, _, _, _, _, hshape⟩ := automated_validation_shape hauto
    have hprops := assembleReport_props files ji pi ci vi ht
    rw [← hshape] at hprops
    cases deep with
    | false =>
      simp only [Bool.false_eq_true, if_false, pure, Except.pure, Except.ok.injEq] at h
      subst h
      exact ⟨hprops.1, hprops.2.1.1, hprops.2.1.2, hprops.2.2⟩
    | true =>
      simp only [if_true] at h
      cases hllm : llm_validation decoded with
      | error e =>
        rw [hllm] at h
        exact absurd h (by simp [Bind.bind, Except.bind])
      | ok rep =>
        rw [hllm] at h
        simp only [Bind.bind, Except.bind, pure, Except.pure, Except.ok.injEq] at h
        subst h
        have hrep := llm_validation_ranges hllm hs
        have hmerge := merge_validations_ranges hprops.1 hprops.2.1 hrep.1 hrep.2
        refine ⟨hmerge.1, hmerge.2.1, hmerge.2.2, ?_⟩
        have hspec := merge_validations_spec auto rep
        rw [hspec.2.2.2.2.2.1]
        exact hspec.2.2.2.2.2.2

/-- A secondary payload carrying out-of-range numbers. -/
def c1BadSecondary : JsonTop :=
  .dict { validationStatus := none, score := some 300, issues := none,
          suggestions := none, details := some [ ( "completeness".data, 300)] }

/-- Claim C1, counterexample: the validation engine does not validate the
secondary assessment's numeric ranges and the merge does not clamp, so merging
the empty bundle's automated report (score 77) with a secondary payload whose
score is 300 produces a merged report with overall score 188 and completeness
162 — outside [0, 100]. -/
theorem merged_report_out_of_range :
    (validator_process [] true (some c1BadSecondary)).map Report.score = .ok 188 ∧
      (validator_process [] true (some c1BadSecondary)).map
        (fun r => detailsGet r.details "completeness".data) = .ok 162 ∧
      ¬ ((188 : Int) ≤ 100) := ⟨rfl, rfl, by decide⟩

/-- Witness for C1 (amended): empty bundle, deep validation on, a
parsed-but-non-dict secondary payload (backfilled in range). -/
theorem validation_report_ranges_witness :
    (∀ kv ∈ (merge_validations
        { validationStatus := "PASS".data
          score := 77
          issues := [ "Missing or empty required files: slingModel, htl, dialog".data]
          suggestions := []
          details := [ ( "completeness".data, 25), ( "bestPractices".data, 100),
            ( "performance".data, 100), ( "accessibility".data, 100),
            ( "security".data, 100)] }
        { validationStatus := "UNKNOWN".data, score := 50, issues := [],
          suggestions := [], details := llmDefaultDetails }).details,
      0 ≤ kv.2 ∧ kv.2 ≤ 100) ∧
      0 ≤ (merge_validations
        { validationStatus := "PASS".data
          score := 77
          issues := [ "Missing or empty required files: slingModel, htl, dialog".data]
          suggestions := []
          details := [ ( "completeness".data, 25), ( "bestPractices".data, 100),
            ( "performance".data, 100), ( "accessibility".data, 100),
            ( "security".data, 100)] }
        { validationStatus := "UNKNOWN".data, score := 50, issues := [],
          suggestions := [], details := llmDefaultDetails }).score ∧
      (merge_validations
        { validationStatus := "PASS".data
          score := 77
          issues := [ "Missing or empty required files: slingModel, htl, dialog".data]
          suggestions := []
          details := [ ( "completeness".data, 25), ( "bestPractices".data, 100),
            ( "performance".data, 100), ( "accessibility".data, 100),
            ( "security".data, 100)] }
        { validationStatus := "UNKNOWN".data, score := 50, issues := [],
          suggestions := [], details := llmDefaultDetails }).score ≤ 100 ∧
      ((merge_validations
        { validationStatus := "PASS".data
          score := 77
          issues := [ "Missing or empty required files: slingModel, htl, dialog".data]
          suggestions := []
          details := [ ( "completeness".data, 25), ( "bestPractices".data, 100),
            ( "performance".data, 100), ( "accessibility".data, 100),
            ( "security".data, 100)] }
        { validationStatus := "UNKNOWN".data, score := 50, issues := [],
          suggestions := [], details := llmDefaultDetails }).validationStatus =
          "PASS".data ↔
        70 ≤ (merge_validations
        { validationStatus := "PASS".data
          score := 77
          issues := [ "Missing or empty required files: slingModel, htl, dialog".data]
          suggestions := []
          details := [ ( "completeness".data, 25), ( "bestPractices".data, 100),
            ( "performance".data, 100), ( "accessibility".data, 100),
            ( "security".data, 100)] }
        { validationStatus := "UNKNOWN".data, score := 50, issues := [],
          suggestions := [], details := llmDefaultDetails }).score) :=
  validation_report_ranges [] true (some .notDict) _ rfl
    (fun _j hj => JsonTop.noConfusion (Option.some.inj hj))

/-- Truthiness of the `slingModel` entry (`files.get('slingModel')` used in a
boolean context at validator.py line 133). -/
def slingModelTruthy (files : Files) : Bool :=
  match getFile files "slingModel".data with
  | some v => v.truthy
  | none => false

/-- Is the `projectStructure` entry present and a plain string? -/
def strProjectStructure (files : Files) : Bool :=
  match getFile files "projectStructure".data with
  | some (.str _) => true
  | _ => false

/-- Is an optional artifact value a truthy (non-empty) dict? -/
def dictTruthy : Option FileVal → Bool
  | some (.dict m) => m ≠ []
  | _ => false

/-- The exact raise condition of `_automated_validation` over the artifact
value model: a truthy `slingModel` next to a string-valued `projectStructure`
hits `.get` on a `str` (`AttributeError`, the guarded lookup at validator.py
line 134); a truthy dict-valued `slingModel` hits a regex or `.count` over a
dict in the package/compilation/security steps (`TypeError`/`AttributeError`);
a truthy dict-valued `htl` hits `re.findall`/`re.search` over a dict
(`TypeError`).  Every other value shape — string values, falsy values, a
dict-valued `dialog`, `clientlibs` or unknown key — is only membership-tested
or type-guarded and never raises. -/
def rubricRaiseShape (files : Files) : Bool :=
  (slingModelTruthy files && strProjectStructure files) ||
    dictTruthy (getFile files "slingModel".data) ||
    dictTruthy (getFile files "htl".data)

theorem getFile_some_mem {files : Files} {k : Str} {v : FileVal}
    (h : getFile files k = some v) : (k, v) ∈ files := by
  unfold getFile at h
  cases hf : files.find? (fun p => p.1 = k) with
  | none => rw [hf] at h; cases h
  | some p =>
    rw [hf] at h
    have h1 := List.find?_some hf
    have h2 := List.mem_of_find?_eq_some hf
    cases p with
    | mk a b =>
      simp only [Option.map, Option.some.injEq] at h
      simp only [decide_eq_true_eq] at h1
      subst h
      subst h1
      exact h2

theorem exists_ok_of_no_error {α : Type} {e : Except PyError α}
    (h : ∀ a, e = .error a → False) : ∃ l, e = .ok l := by
  cases e with
  | error a => exact absurd rfl (h a)
  | ok l => exact ⟨l, rfl⟩

theorem shape_false_parts {files : Files} (h : rubricRaiseShape files = false) :
    (slingModelTruthy files && strProjectStructure files) = false ∧
      dictTruthy (getFile files "slingModel".data) = false ∧
      dictTruthy (getFile files "htl".data) = false := by
  unfold rubricRaiseShape at h
  simp only [Bool.or_eq_false_iff] at h
  exact ⟨h.1.1, h.1.2, h.2⟩

theorem slingModelTruthy_spec {files : Files} (h : slingModelTruthy files = true) :
    ∃ v, getFile files "slingModel".data = some v ∧ v.truthy = true := by
  unfold slingModelTruthy at h
  split at h
  · rename_i v hv
    exact ⟨v, hv, h⟩
  · exact Bool.noConfusion h

theorem strProjectStructure_spec {files : Files}
    (h : strProjectStructure files = true) :
    ∃ s, getFile files "projectStructure".data = some (.str s) := by
  unfold strProjectStructure at h
  split at h
  · rename_i s hs
    exact ⟨s, hs⟩
  · exact Bool.noConfusion h

theorem dictTruthy_spec {o : Option FileVal} (h : dictTruthy o = true) :
    ∃ m, o = some (.dict m) ∧ m ≠ [] := by
  cases o with
  | none => exact Bool.noConfusion h
  | some v =>
    cases v with
    | str s => exact Bool.noConfusion h
    | dict m => exact ⟨m, rfl, of_decide_eq_true h⟩

theorem javaStep_ok {files : Files}
    (h1 : (slingModelTruthy files && strProjectStructure files) = false)
    (h2 : dictTruthy (getFile files "slingModel".data) = false) :
    ∃ l, javaStep files = .ok l := by
  apply exists_ok_of_no_error
  intro a ha
  unfold javaStep at ha
  split at ha
  · exact Except.noConfusion ha
  · rename_i sm hsm
    split at ha
    · rename_i htr
      split at ha
      · exact Except.noConfusion ha
      · rename_i s hps
        rw [show slingModelTruthy files = true by
              unfold slingModelTruthy; rw [hsm]; exact htr,
            show strProjectStructure files = true by
              unfold strProjectStructure; rw [hps]] at h1
        exact Bool.noConfusion h1
      · rename_i ps hps
        split at ha
        · exact Except.noConfusion ha
        · split at ha
          · split at ha
            · exact Except.noConfusion ha
            · rename_i m
              rw [hsm] at h2
              simp only [dictTruthy, decide_eq_false_iff_not] at h2
              simp only [FileVal.truthy, decide_eq_true_eq] at htr
              exact h2 htr
          · exact Except.noConfusion ha
    · exact Except.noConfusion ha

theorem package_step_ok {files : Files}
    (h1 : (slingModelTruthy files && strProjectStructure files) = false)
    (h2 : dictTruthy (getFile files "slingModel".data) = false) :
    ∃ l, validate_package_declarations files = .ok l := by
  apply exists_ok_of_no_error
  intro a ha
  unfold validate_package_declarations at ha
  split at ha
  · exact Except.noConfusion ha
  · rename_i m hsm
    split at ha
    · rename_i hm
      rw [hsm] at h2
      simp only [dictTruthy, decide_eq_false_iff_not] at h2
      exact h2 hm
    · exact Except.noConfusion ha
  · rename_i s hsm
    split at ha
    · exact Except.noConfusion ha
    · rename_i hs
      split at ha
      · exact Except.noConfusion ha
      · dsimp only at ha
        split at ha
        · exact Except.noConfusion ha
        · rename_i t hps
          rw [show slingModelTruthy files = true by
                unfold slingModelTruthy; rw [hsm]
                simp [FileVal.truthy, hs],
              show strProjectStructure files = true by
                unfold strProjectStructure; rw [hps]] at h1
          exact Bool.noConfusion h1
        · split at ha
          · exact Except.noConfusion ha
          · split at ha
            · exact Except.noConfusion ha
            · split at ha
              · split at ha <;> exact Except.noConfusion ha
              · exact Except.noConfusion ha

theorem sling_comp_part_ok {files : Files}
    (h2 : dictTruthy (getFile files "slingModel".data) = false) :
    ∃ l, slingCompPart files = .ok l := by
  apply exists_ok_of_no_error
  intro a ha
  unfold slingCompPart at ha
  split at ha
  · exact Except.noConfusion ha
  · rename_i m hsm
    split at ha
    · rename_i hm
      rw [hsm] at h2
      simp only [dictTruthy, decide_eq_false_iff_not] at h2
      exact h2 hm
    · exact Except.noConfusion ha
  · split at ha <;> exact Except.noConfusion ha

theorem htl_comp_part_ok {files : Files}
    (h3 : dictTruthy (getFile files "htl".data) = false) :
    ∃ l, htlCompPart files = .ok l := by
  apply exists_ok_of_no_error
  intro a ha
  unfold htlCompPart at ha
  split at ha
  · exact Except.noConfusion ha
  · rename_i m hht
    split at ha
    · rename_i hm
      rw [hht] at h3
      simp only [dictTruthy, decide_eq_false_iff_not] at h3
      exact h3 hm
    · exact Except.noConfusion ha
  · split at ha <;> exact Except.noConfusion ha

theorem sling_sec_part_ok {files : Files}
    (h2 : dictTruthy (getFile files "slingModel".data) = false) :
    ∃ l, slingSecPart files = .ok l := by
  apply exists_ok_of_no_error
  intro a ha
  unfold slingSecPart at ha
  split at ha
  · exact Except.noConfusion ha
  · rename_i m hsm
    split at ha
    · rename_i hm
      rw [hsm] at h2
      simp only [dictTruthy, decide_eq_false_iff_not] at h2
      exact h2 hm
    · exact Except.noConfusion ha
  · split at ha <;> exact Except.noConfusion ha

theorem htl_sec_part_ok {files : Files}
    (h3 : dictTruthy (getFile files "htl".data) = false) :
    ∃ l, htlSecPart files = .ok l := by
  apply exists_ok_of_no_error
  intro a ha
  unfold htlSecPart at ha
  split at ha
  · exact Except.noConfusion ha
  · rename_i m hht
    split at ha
    · rename_i hm
      rw [hht] at h3
      simp only [dictTruthy, decide_eq_false_iff_not] at h3
      exact h3 hm
    · exact Except.noConfusion ha
  · split at ha <;> exact Except.noConfusion ha

theorem compilation_step_ok {files : Files}
    (h2 : dictTruthy (getFile files "slingModel".data) = false)
    (h3 : dictTruthy (getFile files "htl".data) = false) :
    ∃ l, check_compilation_errors files = .ok l := by
  obtain ⟨l1, hl1⟩ := sling_comp_part_ok h2
  obtain ⟨l2, hl2⟩ := htl_comp_part_ok h3
  refine ⟨l1 ++ l2, ?_⟩
  unfold check_compilation_errors
  rw [hl1]
  show htlCompPart files >>= _ = _
  rw [hl2]
  rfl

theorem security_step_ok {files : Files}
    (h2 : dictTruthy (getFile files "slingModel".data) = false)
    (h3 : dictTruthy (getFile files "htl".data) = false) :
    ∃ l, check_security_vulnerabilities files = .ok l := by
  obtain ⟨l1, hl1⟩ := sling_sec_part_ok h2
  obtain ⟨l2, hl2⟩ := htl_sec_part_ok h3
  refine ⟨sweepPatternIssues (lowerS (sweepJoin files)) ++ l1 ++ l2, ?_⟩
  unfold check_security_vulnerabilities
  rw [hl1]
  show htlSecPart files >>= _ = _
  rw [hl2]
  rfl

theorem htl_branch_ok {files : Files}
    (h3 : dictTruthy (getFile files "htl".data) = false) :
    ∃ o, htlBranch files = .ok o := by
  apply exists_ok_of_no_error
  intro a ha
  unfold htlBranch at ha
  split at ha
  · exact Except.noConfusion ha
  · rename_i m hht
    split at ha
    · rename_i hm
      rw [hht] at h3
      simp only [dictTruthy, decide_eq_false_iff_not] at h3
      exact h3 hm
    · exact Except.noConfusion ha
  · split at ha <;> exact Except.noConfusion ha

theorem av_err_of_javaStep {files : Files} {e : PyError}
    (h : javaStep files = .error e) : automated_validation files = .error e := by
  unfold automated_validation
  rw [h]
  rfl

theorem av_err_of_package {files : Files} {ji : List Str} {e : PyError}
    (hj : javaStep files = .ok ji)
    (h : validate_package_declarations files = .error e) :
    automated_validation files = .error e := by
  unfold automated_validation
  rw [hj]
  show validate_package_declarations files >>= _ = _
  rw [h]
  rfl

theorem av_err_of_compilation {files : Files} {ji pi : List Str} {e : PyError}
    (hj : javaStep files = .ok ji)
    (hp : validate_package_declarations files = .ok pi)
    (h : check_compilation_errors files = .error e) :
    automated_validation files = .error e := by
  unfold automated_validation
  rw [hj]
  show validate_package_declarations files >>= _ = _
  rw [hp]
  show check_compilation_errors files >>= _ = _
  rw [h]
  rfl

theorem rubric_raises_of_shape {files : Files}
    (h : rubricRaiseShape files = true) :
    ∃ e, automated_validation files = .error e := by
  unfold rubricRaiseShape at h
  simp only [Bool.or_eq_true] at h
  rcases h with (hA | hB) | hC
  · rw [Bool.and_eq_true] at hA
    obtain ⟨v, hsm, htr⟩ := slingModelTruthy_spec hA.1
    obtain ⟨s, hps⟩ := strProjectStructure_spec hA.2
    refine ⟨.attributeError, av_err_of_javaStep ?_⟩
    unfold javaStep
    simp only [hsm, htr, if_true, hps]
  · obtain ⟨m, hsm, hm⟩ := dictTruthy_spec hB
    cases hj : javaStep files with
    | error e => exact ⟨e, av_err_of_javaStep hj⟩
    | ok ji =>
      refine ⟨.typeError, av_err_of_package hj ?_⟩
      unfold validate_package_declarations
      simp only [hsm]
      rw [if_pos hm]
  · obtain ⟨m, hht, hm⟩ := dictTruthy_spec hC
    have hhtl : htlCompPart files = .error .typeError := by
      unfold htlCompPart
      simp only [hht]
      rw [if_pos hm]
    cases hj : javaStep files with
    | error e => exact ⟨e, av_err_of_javaStep hj⟩
    | ok ji =>
      cases hp : validate_package_declarations files with
      | error e => exact ⟨e, av_err_of_package hj hp⟩
      | ok pi =>
        have hcomp : ∃ e, check_compilation_errors files = .error e := by
          cases hs : slingCompPart files with
          | error e =>
            exact ⟨e, by unfold check_compilation_errors; rw [hs]; rfl⟩
          | ok l =>
            refine ⟨.typeError, ?_⟩
            unfold check_compilation_errors
            rw [hs]
            show htlCompPart files >>= _ = _
            rw [hhtl]
            rfl
        obtain ⟨e, hce⟩ := hcomp
        exact ⟨e, av_err_of_compilation hj hp hce⟩

/-- Claim C6 as amended: the deterministic rubric returns a well-formed report
(the five categories in order, status PASS or FAIL) on exactly those artifact
mappings that avoid the three raising shapes of `rubricRaiseShape`: a truthy
`slingModel` alongside a string-valued `projectStructure` (AttributeError at
the guarded lookup `files.get('projectStructure', \x7b\x7d).get(...)` at
validator.py line 134 in `_automated_validation`), a truthy dict-valued
`slingModel`, or a truthy dict-valued `htl` (TypeError/AttributeError at the
regex and `.count` calls of the package/compilation/security/HTL steps).  All
other value shapes — string values, falsy values, a string `projectStructure`
with falsy or absent `slingModel`, a dict-valued `dialog` or any unknown key
(both only membership-tested) — never raise, so the original unconditional
never-raises claim is false. -/
theorem rubric_total_iff (files : Files) :
    (∃ r, automated_validation files = .ok r ∧
        r.details.map Prod.fst = categories ∧
        (r.validationStatus = "PASS".data ∨ r.validationStatus = "FAIL".data)) ↔
      rubricRaiseShape files = false := by
  constructor
  · rintro ⟨r, hr, -, -⟩
    cases hq : rubricRaiseShape files with
    | false => rfl
    | true =>
      obtain ⟨e, he⟩ := rubric_raises_of_shape hq
      rw [he] at hr
      exact Except.noConfusion hr
  · intro hsh
    obtain ⟨h1, h2, h3⟩ := shape_false_parts hsh
    obtain ⟨ji, hji⟩ := javaStep_ok h1 h2
    obtain ⟨pi, hpi⟩ := package_step_ok h1 h2
    obtain ⟨ci, hci⟩ := compilation_step_ok h2 h3
    obtain ⟨vi, hvi⟩ := security_step_ok h2 h3
    obtain ⟨ht, hht⟩ := htl_branch_ok h3
    refine ⟨assembleReport files ji pi ci vi ht, ?_, ?_, ?_⟩
    · unfold automated_validation
      rw [hji]
      show validate_package_declarations files >>= _ = _
      rw [hpi]
      show check_compilation_errors files >>= _ = _
      rw [hci]
      show check_security_vulnerabilities files >>= _ = _
      rw [hvi]
      show htlBranch files >>= _ = _
      rw [hht]
      rfl
    · rw [assembleReport_details]
      rfl
    · rw [assembleReport_status]
      split
      · exact Or.inl rfl
      · exact Or.inr rfl

/-- Claim C6, counterexample: a bundle whose values are all strings but whose
`projectStructure` entry is a plain string makes the rubric call `.get` on a
`str` (validator.py line 134) and raise `AttributeError`. -/
theorem rubric_raises_on_str_structure :
    automated_validation [ ( "slingModel".data, .str "x".data),
      ( "projectStructure".data, .str "oops".data)] = .error .attributeError := rfl

/-- Witness for C6 (amended): totality on odd-but-harmless shapes the raise
condition excludes — a string-valued `projectStructure` beside a falsy
`slingModel`, and a dict-valued `dialog` that is only membership-tested. -/
theorem rubric_total_iff_witness :
    ∃ r, automated_validation
        [ ( "projectStructure".data, FileVal.str "not a mapping".data),
          ( "slingModel".data, FileVal.str []),
          ( "dialog".data, FileVal.dict [ ( "fieldLabel".data, "x".data)])] = .ok r ∧
      r.details.map Prod.fst = categories ∧
      (r.validationStatus = "PASS".data ∨ r.validationStatus = "FAIL".data) :=
  (rubric_total_iff _).mpr rfl

theorem ne_of_pre {p x t : Str} (hx : ∃ s, x = p ++ s) (h : ¬ p <+: t) : x ≠ t := by
  obtain ⟨s, rfl⟩ := hx
  exact append_ne_of_not_prefix h

theorem ne_of_pre_pre {p q x y : Str} (hx : ∃ s, x = p ++ s) (hy : ∃ t, y = q ++ t)
    (h1 : ¬ p <+: q) (h2 : ¬ q <+: p) : x ≠ y := by
  obtain ⟨s, rfl⟩ := hx
  obtain ⟨t, rfl⟩ := hy
  exact append_ne_append_of_not_prefix h1 h2 s t

theorem classMismatchMsg_pre (a b : Str) :
    ∃ s, classMismatchMsg a b = "Class name \x27".data ++ s :=
  ⟨a ++ ( "\x27 does not match file name \x27".data ++ (b ++ "\x27.java\x27".data)),
    by simp [classMismatchMsg, List.append_assoc]⟩

theorem modelSuffixMsg_pre (a : Str) :
    ∃ s, modelSuffixMsg a = "Sling Model class \x27".data ++ s :=
  ⟨a ++ "\x27 should end with \x27Model\x27 suffix".data,
    by simp [modelSuffixMsg, List.append_assoc]⟩

theorem pascalCaseMsg_pre (a : Str) :
    ∃ s, pascalCaseMsg a = "Class name \x27".data ++ s :=
  ⟨a ++ "\x27 should be in PascalCase format".data,
    by simp [pascalCaseMsg, List.append_assoc]⟩

theorem pkgEndMsg_pre (a : Str) : ∃ s, pkgEndMsg a = "Package \x27".data ++ s :=
  ⟨a ++ "\x27 should end with \x27.core.models\x27".data,
    by simp [pkgEndMsg, List.append_assoc]⟩

theorem pkgPathMsg_pre (a b : Str) :
    ∃ s, pkgPathMsg a b = "Package declaration \x27".data ++ s :=
  ⟨a ++ ( "\x27 does not match file path \x27".data ++ (b ++ "\x27".data)),
    by simp [pkgPathMsg, List.append_assoc]⟩

theorem missingImportMsg_pre (a : Str) :
    ∃ s, missingImportMsg a = "Missing import: ".data ++ s :=
  ⟨a, by simp [missingImportMsg]⟩

theorem bracesMsg_pre (o c : Nat) : ∃ s, bracesMsg o c = "Unmatched braces: ".data ++ s :=
  ⟨natToStr o ++ ( " opening, ".data ++ (natToStr c ++ " closing".data)),
    by simp [bracesMsg, List.append_assoc]⟩

theorem parensMsg_pre (o c : Nat) :
    ∃ s, parensMsg o c = "Unmatched parentheses: ".data ++ s :=
  ⟨natToStr o ++ ( " opening, ".data ++ (natToStr c ++ " closing".data)),
    by simp [parensMsg, List.append_assoc]⟩

theorem getterMissingMsg_pre (g f : Str) :
    ∃ s, getterMissingMsg g f = "Missing getter method \x27".data ++ s :=
  ⟨g ++ ( "()\x27 for field \x27".data ++ (f ++ "\x27".data)),
    by simp [getterMissingMsg, List.append_assoc]⟩

theorem unmatchedTagMsg_pre (t : Str) :
    ∃ s, unmatchedTagMsg t = "Unmatched HTML tag: <".data ++ s :=
  ⟨t ++ "> has no closing tag".data, by simp [unmatchedTagMsg, List.append_assoc]⟩

theorem slyUseNameMsg_pre (m : Str) :
    ∃ s, slyUseNameMsg m = "Invalid data-sly-use class name: ".data ++ s :=
  ⟨m, by simp [slyUseNameMsg]⟩

theorem getterNullMsg_pre (f : Str) : ∃ s, getterNullMsg f = "Getter for \x27".data ++ s :=
  ⟨f ++ "\x27 should include null safety check".data,
    by simp [getterNullMsg, List.append_assoc]⟩

theorem missingFilesMsg_pre (m : List Str) :
    ∃ s, missingFilesMsg m = "Missing or empty required files: ".data ++ s :=
  ⟨pyJoin ", ".data m, by simp [missingFilesMsg]⟩

theorem placeholderMsg_pre (n : Str) :
    ∃ s, placeholderMsg n = "Placeholder or incomplete code found in ".data ++ s :=
  ⟨n, by simp [placeholderMsg]⟩

theorem mem_validate_java {java path x : Str}
    (hx : x ∈ validate_java_class_consistency java path) :
    x = noPublicClassMsg ∨ (∃ a b, x = classMismatchMsg a b) ∨
      (∃ a, x = modelSuffixMsg a) ∨ (∃ a, x = pascalCaseMsg a) := by
  unfold validate_java_class_consistency at hx
  split at hx
  · simp at hx
    exact Or.inl hx
  · simp only [List.mem_append] at hx
    rcases hx with (hx | hx) | hx
    · split at hx
      · split at hx
        · simp at hx
          exact Or.inr (Or.inl ⟨_, _, hx⟩)
        · simp at hx
      · simp at hx
    · split at hx
      · simp at hx
        exact Or.inr (Or.inr (Or.inl ⟨_, hx⟩))
      · simp at hx
    · split at hx
      · simp at hx
        exact Or.inr (Or.inr (Or.inr ⟨_, hx⟩))
      · simp at hx

theorem mem_javaStep {files : Files} {l : List Str} {x : Str}
    (h : javaStep files = .ok l) (hx : x ∈ l) :
    x = noPublicClassMsg ∨ (∃ a b, x = classMismatchMsg a b) ∨
      (∃ a, x = modelSuffixMsg a) ∨ (∃ a, x = pascalCaseMsg a) := by
  unfold javaStep at h
  split at h
  · cases h; simp at hx
  · split at h
    · split at h
      · cases h; simp at hx
      · exact Except.noConfusion h
      · split at h
        · cases h; simp at hx
        · split at h
          · split at h
            · cases h
              exact mem_validate_java hx
            · exact Except.noConfusion h
          · cases h; simp at hx
    · cases h; simp at hx

theorem mem_package_step {files : Files} {l : List Str} {x : Str}
    (h : validate_package_declarations files = .ok l) (hx : x ∈ l) :
    x = missingPkgMsg ∨ (∃ a, x = pkgEndMsg a) ∨ ∃ a b, x = pkgPathMsg a b := by
  unfold validate_package_declarations at h
  split at h
  · cases h; simp at hx
  · split at h
    · exact Except.noConfusion h
    · cases h; simp at hx
  · split at h
    · cases h; simp at hx
    · split at h
      · cases h
        simp at hx
        exact Or.inl hx
      · dsimp only at h
        split at h
        · cases h
          split at hx
          · simp at hx
            exact Or.inr (Or.inl ⟨_, hx⟩)
          · simp at hx
        · exact Except.noConfusion h
        · split at h
          · cases h
            split at hx
            · simp at hx
              exact Or.inr (Or.inl ⟨_, hx⟩)
            · simp at hx
          · split at h
            · cases h
              split at hx
              · simp at hx
                exact Or.inr (Or.inl ⟨_, hx⟩)
              · simp at hx
            · split at h
              · split at h
                · cases h
                  simp only [List.mem_append] at hx
                  rcases hx with hx | hx
                  · split at hx
                    · simp at hx
                      exact Or.inr (Or.inl ⟨_, hx⟩)
                    · simp at hx
                  · simp at hx
                    exact Or.inr (Or.inr ⟨_, _, hx⟩)
                · cases h
                  split at hx
                  · simp at hx
                    exact Or.inr (Or.inl ⟨_, hx⟩)
                  · simp at hx
              · cases h
                split at hx
                · simp at hx
                  exact Or.inr (Or.inl ⟨_, hx⟩)
                · simp at hx

theorem count_ite_single (c : Prop) [Decidable c] (m x : Str) :
    ((if c then [m] else []) : List Str).count x =
      if c then (if m = x then 1 else 0) else 0 := by
  split
  · rw [show ([m] : List Str) = m :: [] from rfl, List.count_cons]
    simp [beq_iff_eq]
  · simp

theorem mem_slingCompIssues {s x : Str} (hx : x ∈ slingCompIssues s) :
    (∃ a, x = missingImportMsg a) ∨ x = deprecatedInjMsg ∨ x = adaptablesMsg ∨
      x = resourceTypeMsg ∨ (∃ o c, x = bracesMsg o c) ∨ (∃ o c, x = parensMsg o c) ∨
      ∃ g f, x = getterMissingMsg g f := by
  unfold slingCompIssues at hx
  simp only [List.mem_append] at hx
  rcases hx with ((((hx | hx) | hx) | hx) | hx) | hx
  · rw [List.mem_filterMap] at hx
    obtain ⟨pq, _, hpq⟩ := hx
    split at hpq
    · exact Or.inl ⟨pq.2, (Option.some.inj hpq).symm⟩
    · exact Option.noConfusion hpq
  · split at hx
    · simp at hx
      exact Or.inr (Or.inl hx)
    · simp at hx
  · split at hx
    · simp only [List.mem_append] at hx
      rcases hx with hx | hx
      · split at hx
        · simp at hx
          exact Or.inr (Or.inr (Or.inl hx))
        · simp at hx
      · split at hx
        · simp at hx
          exact Or.inr (Or.inr (Or.inr (Or.inl hx)))
        · simp at hx
    · simp at hx
  · split at hx
    · simp at hx
      exact Or.inr (Or.inr (Or.inr (Or.inr (Or.inl ⟨_, _, hx⟩))))
    · simp at hx
  · split at hx
    · simp at hx
      exact Or.inr (Or.inr (Or.inr (Or.inr (Or.inr (Or.inl ⟨_, _, hx⟩)))))
    · simp at hx
  · rw [List.mem_filterMap] at hx
    obtain ⟨f, _, hf⟩ := hx
    split at hf
    · exact Or.inr (Or.inr (Or.inr (Or.inr (Or.inr (Or.inr
        ⟨_, _, (Option.some.inj hf).symm⟩)))))
    · exact Option.noConfusion hf

theorem mem_htlCompIssues {s x : Str} (hx : x ∈ htlCompIssues s) :
    (∃ t, x = unmatchedTagMsg t) ∨ ∃ m, x = slyUseNameMsg m := by
  unfold htlCompIssues at hx
  simp only [List.mem_append] at hx
  rcases hx with hx | hx
  · rw [List.mem_filterMap] at hx
    obtain ⟨t, _, ht⟩ := hx
    split at ht
    · exact Or.inl ⟨t, (Option.some.inj ht).symm⟩
    · exact Option.noConfusion ht
  · rw [List.mem_filterMap] at hx
    obtain ⟨m, _, hm⟩ := hx
    split at hm
    · exact Or.inr ⟨m, (Option.some.inj hm).symm⟩
    · exact Option.noConfusion hm

theorem mem_slingSecIssues {s x : Str} (hx : x ∈ slingSecIssues s) :
    x = stringUtilsMsg ∨ x = resLeakMsg ∨ ∃ f, x = getterNullMsg f := by
  unfold slingSecIssues at hx
  simp only [List.mem_append] at hx
  rcases hx with (hx | hx) | hx
  · split at hx
    · simp at hx
      exact Or.inl hx
    · simp at hx
  · split at hx
    · simp at hx
      exact Or.inr (Or.inl hx)
    · simp at hx
  · rw [List.mem_filterMap] at hx
    obtain ⟨f, _, hf⟩ := hx
    split at hf
    · split at hf
      · split at hf
        · exact Or.inr (Or.inr ⟨_, (Option.some.inj hf).symm⟩)
        · exact Option.noConfusion hf
      · exact Option.noConfusion hf
    · exact Option.noConfusion hf

theorem mem_htlSecIssues {s x : Str} (hx : x ∈ htlSecIssues s) :
    x = unsafeCtxMsg ∨ x = scriptInjMsg := by
  unfold htlSecIssues at hx
  simp only [List.mem_append] at hx
  rcases hx with hx | hx
  · split at hx
    · simp at hx
      exact Or.inl hx
    · simp at hx
  · split at hx
    · simp at hx
      exact Or.inr hx
    · simp at hx

theorem mem_slingCompPart {files : Files} {l : List Str} {x : Str}
    (h : slingCompPart files = .ok l) (hx : x ∈ l) :
    (∃ a, x = missingImportMsg a) ∨ x = deprecatedInjMsg ∨ x = adaptablesMsg ∨
      x = resourceTypeMsg ∨ (∃ o c, x = bracesMsg o c) ∨ (∃ o c, x = parensMsg o c) ∨
      ∃ g f, x = getterMissingMsg g f := by
  unfold slingCompPart at h
  split at h
  · cases h; simp at hx
  · split at h
    · exact Except.noConfusion h
    · cases h; simp at hx
  · split at h
    · cases h; simp at hx
    · cases h
      exact mem_slingCompIssues hx

theorem mem_htlCompPart {files : Files} {l : List Str} {x : Str}
    (h : htlCompPart files = .ok l) (hx : x ∈ l) :
    (∃ t, x = unmatchedTagMsg t) ∨ ∃ m, x = slyUseNameMsg m := by
  unfold htlCompPart at h
  split at h
  · cases h; simp at hx
  · split at h
    · exact Except.noConfusion h
    · cases h; simp at hx
  · split at h
    · cases h; simp at hx
    · cases h
      exact mem_htlCompIssues hx

theorem mem_compilation_step {files : Files} {l : List Str} {x : Str}
    (h : check_compilation_errors files = .ok l) (hx : x ∈ l) :
    (∃ a, x = missingImportMsg a) ∨ x = deprecatedInjMsg ∨ x = adaptablesMsg ∨
      x = resourceTypeMsg ∨ (∃ o c, x = bracesMsg o c) ∨ (∃ o c, x = parensMsg o c) ∨
      (∃ g f, x = getterMissingMsg g f) ∨ (∃ t, x = unmatchedTagMsg t) ∨
      ∃ m, x = slyUseNameMsg m := by
  unfold check_compilation_errors at h
  cases h1 : slingCompPart files with
  | error e =>
    rw [h1] at h
    exact absurd h (by simp [Bind.bind, Except.bind])
  | ok l1 =>
    rw [h1] at h
    simp only [Bind.bind, Except.bind] at h
    cases h2 : htlCompPart files with
    | error e =>
      simp only [h2] at h
      exact Except.noConfusion h
    | ok l2 =>
      simp only [h2, pure, Except.pure, Except.ok.injEq] at h
      subst h
      rcases List.mem_append.1 hx with hx | hx
      · rcases mem_slingCompPart h1 hx with h' | h' | h' | h' | h' | h' | h'
        · exact Or.inl h'
        · exact Or.inr (Or.inl h')
        · exact Or.inr (Or.inr (Or.inl h'))
        · exact Or.inr (Or.inr (Or.inr (Or.inl h')))
        · exact Or.inr (Or.inr (Or.inr (Or.inr (Or.inl h'))))
        · exact Or.inr (Or.inr (Or.inr (Or.inr (Or.inr (Or.inl h')))))
        · exact Or.inr (Or.inr (Or.inr (Or.inr (Or.inr (Or.inr (Or.inl h'))))))
      · rcases mem_htlCompPart h2 hx with h' | h'
        · exact Or.inr (Or.inr (Or.inr (Or.inr (Or.inr (Or.inr (Or.inr (Or.inl h')))))))
        · exact Or.inr (Or.inr (Or.inr (Or.inr (Or.inr (Or.inr (Or.inr (Or.inr h')))))))

theorem mem_security_step {files : Files} {l : List Str} {x : Str}
    (h : check_security_vulnerabilities files = .ok l) (hx : x ∈ l) :
    x ∈ sweepPatternIssues (lowerS (sweepJoin files)) ∨ x = stringUtilsMsg ∨
      x = resLeakMsg ∨ (∃ f, x = getterNullMsg f) ∨ x = unsafeCtxMsg ∨
      x = scriptInjMsg := by
  unfold check_security_vulnerabilities at h
  cases h1 : slingSecPart files with
  | error e =>
    rw [h1] at h
    exact absurd h (by simp [Bind.bind, Except.bind])
  | ok l1 =>
    rw [h1] at h
    simp only [Bind.bind, Except.bind] at h
    cases h2 : htlSecPart files with
    | error e =>
      simp only [h2] at h
      exact Except.noConfusion h
    | ok l2 =>
      simp only [h2, pure, Except.pure, Except.ok.injEq] at h
      subst h
      rcases List.mem_append.1 hx with hx | hx
      · rcases List.mem_append.1 hx with hx | hx
        · exact Or.inl hx
        · have hl1 : ∀ y ∈ l1, y = stringUtilsMsg ∨ y = resLeakMsg ∨
              ∃ f, y = getterNullMsg f := by
            intro y hy
            revert h1
            unfold slingSecPart
            intro h1
            split at h1
            · cases h1; simp at hy
            · split at h1
              · exact Except.noConfusion h1
              · cases h1; simp at hy
            · split at h1
              · cases h1; simp at hy
              · cases h1
                exact mem_slingSecIssues hy
          rcases hl1 x hx with h' | h' | h'
          · exact Or.inr (Or.inl h')
          · exact Or.inr (Or.inr (Or.inl h'))
          · exact Or.inr (Or.inr (Or.inr (Or.inl h')))
      · have hl2 : ∀ y ∈ l2, y = unsafeCtxMsg ∨ y = scriptInjMsg := by
          intro y hy
          revert h2
          unfold htlSecPart
          intro h2
          split at h2
          · cases h2; simp at hy
          · split at h2
            · exact Except.noConfusion h2
            · cases h2; simp at hy
          · split at h2
            · cases h2; simp at hy
            · cases h2
              exact mem_htlSecIssues hy
        rcases hl2 x hx with h' | h'
        · exact Or.inr (Or.inr (Or.inr (Or.inr (Or.inl h'))))
        · exact Or.inr (Or.inr (Or.inr (Or.inr (Or.inr h'))))

theorem mem_placeholderIssues {files : Files} {x : Str}
    (hx : x ∈ placeholderIssues files) : ∃ n, x = placeholderMsg n := by
  unfold placeholderIssues at hx
  rcases mem_concatAll.1 hx with ⟨seg, hseg, hxseg⟩
  rcases List.mem_map.1 hseg with ⟨p, _, rfl⟩
  cases hp : p.2 with
  | str c =>
    rw [hp] at hxseg
    exact ⟨p.1, List.eq_of_mem_replicate hxseg⟩
  | dict m =>
    rw [hp] at hxseg
    simp at hxseg

theorem placeholderMsg_inj {a b : Str} (h : placeholderMsg a = placeholderMsg b) : a = b :=
  List.append_cancel_left h

theorem count_placeholder_not_key {files : Files} {name : Str}
    (h : name ∉ files.map Prod.fst) :
    (placeholderIssues files).count (placeholderMsg name) = 0 := by
  induction files with
  | nil => rfl
  | cons p t ih =>
    have hne : p.1 ≠ name := by
      intro he
      apply h
      rw [List.map_cons, ← he]
      exact List.mem_cons_self _ _
    have ht : name ∉ t.map Prod.fst := by
      intro he
      apply h
      rw [List.map_cons]
      exact List.mem_cons_of_mem _ he
    show (List.count (placeholderMsg name))
      ((match p.2 with
        | FileVal.str c => List.replicate (placeholderMatchCount c) (placeholderMsg p.1)
        | FileVal.dict _ => []) ++ placeholderIssues t) = 0
    rw [List.count_append, ih ht]
    cases hp : p.2 with
    | dict m => simp
    | str c =>
      rw [List.count_replicate]
      have : ¬ (placeholderMsg p.1 == placeholderMsg name) = true := by
        simp only [beq_iff_eq]
        exact fun he => hne (placeholderMsg_inj he)
      simp [this]

theorem count_placeholder_self {files : Files} {name content : Str}
    (hmem : (name, FileVal.str content) ∈ files)
    (hnodup : (files.map Prod.fst).Nodup) :
    (placeholderIssues files).count (placeholderMsg name) =
      placeholderMatchCount content := by
  induction files with
  | nil => simp at hmem
  | cons p t ih =>
    rw [List.map_cons, List.nodup_cons] at hnodup
    rcases List.mem_cons.1 hmem with heq | hmem'
    · subst heq
      show (List.count (placeholderMsg name))
        (List.replicate (placeholderMatchCount content) (placeholderMsg name) ++
          placeholderIssues t) = _
      rw [List.count_append, List.count_replicate, count_placeholder_not_key hnodup.1]
      simp
    · have hkey : name ∈ t.map Prod.fst :=
        List.mem_map.2 ⟨(name, FileVal.str content), hmem', rfl⟩
      have hne : p.1 ≠ name := fun he => hnodup.1 (he ▸ hkey)
      show (List.count (placeholderMsg name))
        ((match p.2 with
          | FileVal.str c => List.replicate (placeholderMatchCount c) (placeholderMsg p.1)
          | FileVal.dict _ => []) ++ placeholderIssues t) = _
      rw [List.count_append, ih hmem' hnodup.2]
      cases hp : p.2 with
      | dict m => simp
      | str c =>
        rw [List.count_replicate]
        have : ¬ (placeholderMsg p.1 == placeholderMsg name) = true := by
          simp only [beq_iff_eq]
          exact fun he => hne (placeholderMsg_inj he)
        simp [this]

theorem mem_slingSecPart {files : Files} {l : List Str} {x : Str}
    (h : slingSecPart files = .ok l) (hx : x ∈ l) :
    x = stringUtilsMsg ∨ x = resLeakMsg ∨ ∃ f, x = getterNullMsg f := by
  unfold slingSecPart at h
  split at h
  · cases h; simp at hx
  · split at h
    · exact Except.noConfusion h
    · cases h; simp at hx
  · split at h
    · cases h; simp at hx
    · cases h
      exact mem_slingSecIssues hx

theorem mem_htlSecPart {files : Files} {l : List Str} {x : Str}
    (h : htlSecPart files = .ok l) (hx : x ∈ l) :
    x = unsafeCtxMsg ∨ x = scriptInjMsg := by
  unfold htlSecPart at h
  split at h
  · cases h; simp at hx
  · split at h
    · exact Except.noConfusion h
    · cases h; simp at hx
  · split at h
    · cases h; simp at hx
    · cases h
      exact mem_htlSecIssues hx

theorem security_step_decomp {files : Files} {vi : List Str}
    (h : check_security_vulnerabilities files = .ok vi) :
    ∃ l1 l2, slingSecPart files = .ok l1 ∧ htlSecPart files = .ok l2 ∧
      vi = sweepPatternIssues (lowerS (sweepJoin files)) ++ l1 ++ l2 := by
  unfold check_security_vulnerabilities at h
  cases h1 : slingSecPart files with
  | error e =>
    rw [h1] at h
    exact absurd h (by simp [Bind.bind, Except.bind])
  | ok l1 =>
    rw [h1] at h
    simp only [Bind.bind, Except.bind] at h
    cases h2 : htlSecPart files with
    | error e =>
      simp only [h2] at h
      exact Except.noConfusion h
    | ok l2 =>
      simp only [h2, pure, Except.pure, Except.ok.injEq] at h
      exact ⟨l1, l2, rfl, rfl, h.symm⟩

theorem count_sweep_ne {all x : Str} (h1 : x ≠ xssTextContentMsg)
    (h2 : x ≠ docWriteIssueMsg) (h3 : x ≠ evalUpperMsg) (h4 : x ≠ functionCtorMsg)
    (h5 : x ≠ setTimeoutMsg) (h6 : x ≠ setIntervalMsg) (h7 : x ≠ sqlInjMsg)
    (h8 : x ≠ pwdMsg) (h9 : x ≠ secretMsg) (h10 : x ≠ apiKeyMsg) (h11 : x ≠ tokenMsg) :
    (sweepPatternIssues all).count x = 0 := by
  simp [sweepPatternIssues, List.count_append, count_ite_single, Ne.symm h1, Ne.symm h2,
    Ne.symm h3, Ne.symm h4, Ne.symm h5, Ne.symm h6, Ne.symm h7, Ne.symm h8, Ne.symm h9,
    Ne.symm h10, Ne.symm h11]

theorem count_sweep_evalUpper {all : Str} (hm : evalCallMatch all = true) :
    (sweepPatternIssues all).count evalUpperMsg = 1 := by
  have h1 : xssTextContentMsg ≠ evalUpperMsg := by decide
  have h2 : docWriteIssueMsg ≠ evalUpperMsg := by decide
  have h4 : functionCtorMsg ≠ evalUpperMsg := by decide
  have h5 : setTimeoutMsg ≠ evalUpperMsg := by decide
  have h6 : setIntervalMsg ≠ evalUpperMsg := by decide
  have h7 : sqlInjMsg ≠ evalUpperMsg := by decide
  have h8 : pwdMsg ≠ evalUpperMsg := by decide
  have h9 : secretMsg ≠ evalUpperMsg := by decide
  have h10 : apiKeyMsg ≠ evalUpperMsg := by decide
  have h11 : tokenMsg ≠ evalUpperMsg := by decide
  simp [sweepPatternIssues, List.count_append, count_ite_single, hm, h1, h2, h4, h5, h6,
    h7, h8, h9, h10, h11]

theorem mem_infix_foldr_append {α : Type} {x : List α} {l : List (List α)} (h : x ∈ l) :
    x <:+: l.foldr (· ++ ·) [] := by
  induction l with
  | nil => simp at h
  | cons hd t ih =>
    rcases List.mem_cons.1 h with rfl | h'
    · exact (List.prefix_append x _).isInfix
    · exact List.IsInfix.trans (ih h') (List.suffix_append hd _).isInfix

theorem infix_pyJoin {sep : Str} {parts : List Str} {c : Str} (h : c ∈ parts) :
    c <:+: pyJoin sep parts := by
  cases parts with
  | nil => simp at h
  | cons p rest =>
    show c <:+: p ++ (rest.map (fun q => sep ++ q)).foldr (· ++ ·) []
    rcases List.mem_cons.1 h with rfl | h'
    · exact (List.prefix_append c _).isInfix
    · have hchunk : (sep ++ c) ∈ rest.map (fun q => sep ++ q) :=
        List.mem_map.2 ⟨c, h', rfl⟩
      have h1 : c <:+: sep ++ c := (List.suffix_append sep c).isInfix
      have h2 := mem_infix_foldr_append hchunk
      exact List.IsInfix.trans (List.IsInfix.trans h1 h2)
        (List.suffix_append p _).isInfix

theorem infix_allContentJoined {files : Files} {n c : Str}
    (h : (n, FileVal.str c) ∈ files) : c <:+: allContentJoined files := by
  unfold allContentJoined
  exact infix_pyJoin (List.mem_filterMap.2 ⟨(n, FileVal.str c), h, rfl⟩)

theorem infix_sweepJoin {files : Files} {n c : Str}
    (h : (n, FileVal.str c) ∈ files) : c <:+: sweepJoin files := by
  unfold sweepJoin
  have hchunk : ( "\n--- ".data ++ n ++ " ---\n".data ++ c ++ "\n".data) ∈
      files.map (fun p => match p.2 with
        | FileVal.str cc => "\n--- ".data ++ p.1 ++ " ---\n".data ++ cc ++ "\n".data
        | FileVal.dict _ => []) :=
    List.mem_map.2 ⟨(n, FileVal.str c), h, rfl⟩
  have h1 : c <:+: "\n--- ".data ++ n ++ " ---\n".data ++ c ++ "\n".data :=
    ⟨ "\n--- ".data ++ n ++ " ---\n".data, "\n".data, by simp [List.append_assoc]⟩
  exact List.IsInfix.trans h1 (mem_infix_foldr_append hchunk)

theorem evalCallMatch_of_infix {s : Str} (h : "eval(".data <:+: s) :
    evalCallMatch (lowerS s) = true := by
  have h2 : "eval(".data <:+: lowerS s := by
    have hm := List.IsInfix.map Char.toLower h
    simpa [lowerS] using hm
  obtain ⟨u, v, huv⟩ := h2
  unfold evalCallMatch litWsCharMatch anyTail
  apply List.any_eq_true.2
  refine ⟨ "eval(".data ++ v, (List.mem_tails _ _).2 ⟨u, by rw [← List.append_assoc, huv]⟩, ?_⟩
  simp [List.isPrefixOf, List.dropWhile, wsChar]

theorem assembleReport_issues (files : Files) (ji pi ci vi : List Str)
    (ht : Option HtlFlags) :
    (assembleReport files ji pi ci vi ht).issues =
      placeholderIssues files ++
        (if missingFiles files ≠ [] then [missingFilesMsg (missingFiles files)] else []) ++
        ji ++ pi ++ ci ++ vi ++
        (match ht with
         | some hh => if !hh.dsly then [htlDslyMsg] else []
         | none => []) ++
        (match slingBranch files with
         | some f =>
           (if !f.hasModelAnno then [slingModelAnnoMsg] else []) ++
             (if !f.hasNullSafety then [nullSafetyMsg] else [])
         | none => []) ++
        (if subB "innerHTML".data (allContentJoined files) then [innerHtmlIssueMsg]
         else []) ++
        (if subB "eval(".data (allContentJoined files) then [evalLowerMsg] else []) := rfl

theorem count_javaStep_ne {files : Files} {l : List Str} {x : Str}
    (h : javaStep files = .ok l) (h1 : x ≠ noPublicClassMsg)
    (h2 : ∀ a b, x ≠ classMismatchMsg a b) (h3 : ∀ a, x ≠ modelSuffixMsg a)
    (h4 : ∀ a, x ≠ pascalCaseMsg a) : l.count x = 0 := by
  refine List.count_eq_zero_of_not_mem fun hx => ?_
  rcases mem_javaStep h hx with h' | ⟨a, b, h'⟩ | ⟨a, h'⟩ | ⟨a, h'⟩
  · exact h1 h'
  · exact h2 a b h'
  · exact h3 a h'
  · exact h4 a h'

theorem count_package_ne {files : Files} {l : List Str} {x : Str}
    (h : validate_package_declarations files = .ok l) (h1 : x ≠ missingPkgMsg)
    (h2 : ∀ a, x ≠ pkgEndMsg a) (h3 : ∀ a b, x ≠ pkgPathMsg a b) : l.count x = 0 := by
  refine List.count_eq_zero_of_not_mem fun hx => ?_
  rcases mem_package_step h hx with h' | ⟨a, h'⟩ | ⟨a, b, h'⟩
  · exact h1 h'
  · exact h2 a h'
  · exact h3 a b h'

theorem count_compilation_ne {files : Files} {l : List Str} {x : Str}
    (h : check_compilation_errors files = .ok l) (h1 : ∀ a, x ≠ missingImportMsg a)
    (h2 : x ≠ deprecatedInjMsg) (h3 : x ≠ adaptablesMsg) (h4 : x ≠ resourceTypeMsg)
    (h5 : ∀ o c, x ≠ bracesMsg o c) (h6 : ∀ o c, x ≠ parensMsg o c)
    (h7 : ∀ g f, x ≠ getterMissingMsg g f) (h8 : ∀ t, x ≠ unmatchedTagMsg t)
    (h9 : ∀ m, x ≠ slyUseNameMsg m) : l.count x = 0 := by
  refine List.count_eq_zero_of_not_mem fun hx => ?_
  rcases mem_compilation_step h hx with ⟨a, h'⟩ | h' | h' | h' | ⟨o, c, h'⟩ | ⟨o, c, h'⟩ |
    ⟨g, f, h'⟩ | ⟨t, h'⟩ | ⟨m, h'⟩
  · exact h1 a h'
  · exact h2 h'
  · exact h3 h'
  · exact h4 h'
  · exact h5 o c h'
  · exact h6 o c h'
  · exact h7 g f h'
  · exact h8 t h'
  · exact h9 m h'

theorem count_slingSecPart_ne {files : Files} {l : List Str} {x : Str}
    (h : slingSecPart files = .ok l) (h1 : x ≠ stringUtilsMsg) (h2 : x ≠ resLeakMsg)
    (h3 : ∀ f, x ≠ getterNullMsg f) : l.count x = 0 := by
  refine List.count_eq_zero_of_not_mem fun hx => ?_
  rcases mem_slingSecPart h hx with h' | h' | ⟨f, h'⟩
  · exact h1 h'
  · exact h2 h'
  · exact h3 f h'

theorem count_htlSecPart_ne {files : Files} {l : List Str} {x : Str}
    (h : htlSecPart files = .ok l) (h1 : x ≠ unsafeCtxMsg) (h2 : x ≠ scriptInjMsg) :
    l.count x = 0 := by
  refine List.count_eq_zero_of_not_mem fun hx => ?_
  rcases mem_htlSecPart h hx with h' | h'
  · exact h1 h'
  · exact h2 h'

theorem count_placeholder_ne {files : Files} {x : Str}
    (h : ∀ n, x ≠ placeholderMsg n) : (placeholderIssues files).count x = 0 := by
  refine List.count_eq_zero_of_not_mem fun hx => ?_
  rcases mem_placeholderIssues hx with ⟨n, h'⟩
  exact h n h'

theorem count_htlseg_ne {ht : Option HtlFlags} {x : Str} (h : x ≠ htlDslyMsg) :
    (match ht with
      | some hh => if !hh.dsly then [htlDslyMsg] else []
      | none => ([] : List Str)).count x = 0 := by
  cases ht with
  | none => rfl
  | some hh => simp [count_ite_single, Ne.symm h]

theorem count_slingseg_ne {sf : Option SlingFlags} {x : Str}
    (h1 : x ≠ slingModelAnnoMsg) (h2 : x ≠ nullSafetyMsg) :
    (match sf with
      | some f =>
        (if !f.hasModelAnno then [slingModelAnnoMsg] else []) ++
          (if !f.hasNullSafety then [nullSafetyMsg] else [])
      | none => ([] : List Str)).count x = 0 := by
  cases sf with
  | none => rfl
  | some f => simp [List.count_append, count_ite_single, Ne.symm h1, Ne.symm h2]

theorem detailsGet_security (files : Files) (ji pi ci vi : List Str)
    (ht : Option HtlFlags) :
    detailsGet (assembleReport files ji pi ci vi ht).details "security".data =
      pyClamp (securityRaw vi (slingBranch files)
        (subB "innerHTML".data (allContentJoined files))
        (subB "eval(".data (allContentJoined files))) := rfl

theorem securityRaw_le {vi : List Str} {sling : Option SlingFlags} {inner : Bool}
    (hvi : vi ≠ []) : securityRaw vi sling inner true ≤ 50 := by
  unfold securityRaw condI
  rw [if_pos (decide_eq_true hvi), if_pos rfl]
  cases sling with
  | none => split <;> omega
  | some f =>
    have h1 : (0 : Int) ≤ if f.hasNullSafety = false then (15 : Int) else 0 := by
      split <;> omega
    have h2 : (0 : Int) ≤ if f.resLeak = true then (10 : Int) else 0 := by
      split <;> omega
    split <;> omega

theorem pyClamp_le_of_le {v : Int} (h : v ≤ 50) : pyClamp v ≤ 50 := by
  unfold pyClamp
  omega

/-- Claim C7 as amended: for every artifact bundle in which some artifact's
text contains the literal `eval(` (equivalently, the space-joined concatenated
text contains it, as the needle has no separator characters), the rubric
applies two separate 25-point security deductions — one from the vulnerability
sweep (which fires once when any vulnerability issue is detected) and one from
the direct substring check — leaving the security category at most 50 rather
than reducing it by exactly 25; each of the two eval-related issue strings
(lower-case "avoid" from the direct check, capital "Avoid" from the sweep)
still appears exactly once, however often the pattern occurs. -/
theorem eval_pattern_spec (files : Files) (r : Report) (name c : Str)
    (h : automated_validation files = .ok r)
    (hmem : (name, FileVal.str c) ∈ files)
    (hc : subB "eval(".data c = true) :
    r.issues.count evalLowerMsg = 1 ∧ r.issues.count evalUpperMsg = 1 ∧
      detailsGet r.details "security".data ≤ 50 := by
  obtain ⟨ji, pi, ci, vi, ht, hji, hpi, hci, hvi, hht, rfl⟩ := automated_validation_shape h
  have hec : "eval(".data <:+: c := subB_eq_true_iff.1 hc
  have hjoin : subB "eval(".data (allContentJoined files) = true :=
    subB_eq_true_iff.2 (hec.trans (infix_allContentJoined hmem))
  have hmatch : evalCallMatch (lowerS (sweepJoin files)) = true :=
    evalCallMatch_of_infix (hec.trans (infix_sweepJoin hmem))
  obtain ⟨l1, l2, hl1, hl2, hvieq⟩ := security_step_decomp hvi
  have hcountU : vi.count evalUpperMsg = 1 := by
    rw [hvieq, List.count_append, List.count_append, count_sweep_evalUpper hmatch,
      count_slingSecPart_ne hl1 (by decide) (by decide)
        (fun f => (ne_of_pre (getterNullMsg_pre f) (by decide)).symm),
      count_htlSecPart_ne hl2 (by decide) (by decide)]
  have hvine : vi ≠ [] := by
    intro hnil
    rw [hnil] at hcountU
    simp at hcountU
  have hcountL : vi.count evalLowerMsg = 0 := by
    rw [hvieq, List.count_append, List.count_append,
      count_sweep_ne (by decide) (by decide) (by decide) (by decide) (by decide)
        (by decide) (by decide) (by decide) (by decide) (by decide) (by decide),
      count_slingSecPart_ne hl1 (by decide) (by decide)
        (fun f => (ne_of_pre (getterNullMsg_pre f) (by decide)).symm),
      count_htlSecPart_ne hl2 (by decide) (by decide)]
  have hjava : ∀ y, y = evalLowerMsg ∨ y = evalUpperMsg → ji.count y = 0 := by
    intro y hy
    refine count_javaStep_ne hji ?_ ?_ ?_ ?_
    · rcases hy with rfl | rfl <;> decide
    · intro a b
      rcases hy with rfl | rfl <;>
        exact (ne_of_pre (classMismatchMsg_pre a b) (by decide)).symm
    · intro a
      rcases hy with rfl | rfl <;>
        exact (ne_of_pre (modelSuffixMsg_pre a) (by decide)).symm
    · intro a
      rcases hy with rfl | rfl <;>
        exact (ne_of_pre (pascalCaseMsg_pre a) (by decide)).symm
  have hpkg : ∀ y, y = evalLowerMsg ∨ y = evalUpperMsg → pi.count y = 0 := by
    intro y hy
    refine count_package_ne hpi ?_ ?_ ?_
    · rcases hy with rfl | rfl <;> decide
    · intro a
      rcases hy with rfl | rfl <;>
        exact (ne_of_pre (pkgEndMsg_pre a) (by decide)).symm
    · intro a b
      rcases hy with rfl | rfl <;>
        exact (ne_of_pre (pkgPathMsg_pre a b) (by decide)).symm
  have hcomp : ∀ y, y = evalLowerMsg ∨ y = evalUpperMsg → ci.count y = 0 := by
    intro y hy
    refine count_compilation_ne hci ?_ ?_ ?_ ?_ ?_ ?_ ?_ ?_ ?_
    · intro a
      rcases hy with rfl | rfl <;>
        exact (ne_of_pre (missingImportMsg_pre a) (by decide)).symm
    · rcases hy with rfl | rfl <;> decide
    · rcases hy with rfl | rfl <;> decide
    · rcases hy with rfl | rfl <;> decide
    · intro o c2
      rcases hy with rfl | rfl <;>
        exact (ne_of_pre (bracesMsg_pre o c2) (by decide)).symm
    · intro o c2
      rcases hy with rfl | rfl <;>
        exact (ne_of_pre (parensMsg_pre o c2) (by decide)).symm
    · intro g f
      rcases hy with rfl | rfl <;>
        exact (ne_of_pre (getterMissingMsg_pre g f) (by decide)).symm
    · intro t
      rcases hy with rfl | rfl <;>
        exact (ne_of_pre (unmatchedTagMsg_pre t) (by decide)).symm
    · intro m
      rcases hy with rfl | rfl <;>
        exact (ne_of_pre (slyUseNameMsg_pre m) (by decide)).symm
  have hph : ∀ y, y = evalLowerMsg ∨ y = evalUpperMsg →
      (placeholderIssues files).count y = 0 := by
    intro y hy
    refine count_placeholder_ne fun n => ?_
    rcases hy with rfl | rfl <;>
      exact (ne_of_pre (placeholderMsg_pre n) (by decide)).symm
  have hmiss : ∀ y, y = evalLowerMsg ∨ y = evalUpperMsg →
      ((if missingFiles files ≠ [] then [missingFilesMsg (missingFiles files)]
        else []) : List Str).count y = 0 := by
    intro y hy
    rw [count_ite_single]
    have hne := ne_of_pre (missingFilesMsg_pre (missingFiles files))
      (t := y) (by rcases hy with rfl | rfl <;> decide)
    simp [hne]
  refine ⟨?_, ?_, ?_⟩
  · rw [assembleReport_issues]
    simp only [List.count_append]
    rw [hph _ (Or.inl rfl), hmiss _ (Or.inl rfl), hjava _ (Or.inl rfl),
      hpkg _ (Or.inl rfl), hcomp _ (Or.inl rfl), hcountL,
      count_htlseg_ne (by decide), count_slingseg_ne (by decide) (by decide),
      count_ite_single, count_ite_single]
    simp [hjoin, show innerHtmlIssueMsg ≠ evalLowerMsg by decide]
  · rw [assembleReport_issues]
    simp only [List.count_append]
    rw [hph _ (Or.inr rfl), hmiss _ (Or.inr rfl), hjava _ (Or.inr rfl),
      hpkg _ (Or.inr rfl), hcomp _ (Or.inr rfl), hcountU,
      count_htlseg_ne (by decide), count_slingseg_ne (by decide) (by decide),
      count_ite_single, count_ite_single]
    simp [show innerHtmlIssueMsg ≠ evalUpperMsg by decide,
      show evalLowerMsg ≠ evalUpperMsg by decide]
  · rw [detailsGet_security, hjoin]
    exact pyClamp_le_of_le (securityRaw_le hvine)

/-- Claim C7, counterexample: with `htl = "eval(eval(x)"` (two occurrences of
the pattern) the security category ends at 50 — two 25-point deductions, not
the claimed single 25 (which would leave 75) — while each of the two
eval-related issue strings still appears exactly once. -/
theorem eval_double_deduction :
    (automated_validation [ ( "htl".data, .str "eval(eval(x)".data)]).map
        (fun r => detailsGet r.details "security".data) = .ok 50 ∧
      (automated_validation [ ( "htl".data, .str "eval(eval(x)".data)]).map
        (fun r => r.issues.count evalLowerMsg) = .ok 1 ∧
      (automated_validation [ ( "htl".data, .str "eval(eval(x)".data)]).map
        (fun r => r.issues.count evalUpperMsg) = .ok 1 ∧
      (50 : Int) ≠ 100 - 25 := ⟨rfl, rfl, rfl, by decide⟩

/-- Claim C7, witness: the amended statement instantiated on a bundle whose
`htl` artifact contains a single `eval(` occurrence; both eval-related issue
strings appear once and the security category is at most 50. -/
theorem eval_pattern_spec_witness :
    (Report.mk "PASS".data 70
        [ "Missing or empty required files: slingModel, dialog".data,
          "Security risk: Avoid eval() function".data,
          "HTL missing data-sly-use directive for Sling Model integration".data,
          "Security risk: avoid eval() function".data]
        [ "Add ARIA attributes for better accessibility".data,
          "Consider adding conditional rendering with data-sly-test".data,
          "Add CSS classes for styling".data]
        [ ( "completeness".data, 50), ( "bestPractices".data, 80),
          ( "performance".data, 95), ( "accessibility".data, 90),
          ( "security".data, 50)]).issues.count evalLowerMsg = 1 ∧
      (Report.mk "PASS".data 70
        [ "Missing or empty required files: slingModel, dialog".data,
          "Security risk: Avoid eval() function".data,
          "HTL missing data-sly-use directive for Sling Model integration".data,
          "Security risk: avoid eval() function".data]
        [ "Add ARIA attributes for better accessibility".data,
          "Consider adding conditional rendering with data-sly-test".data,
          "Add CSS classes for styling".data]
        [ ( "completeness".data, 50), ( "bestPractices".data, 80),
          ( "performance".data, 95), ( "accessibility".data, 90),
          ( "security".data, 50)]).issues.count evalUpperMsg = 1 ∧
      detailsGet (Report.mk "PASS".data 70
        [ "Missing or empty required files: slingModel, dialog".data,
          "Security risk: Avoid eval() function".data,
          "HTL missing data-sly-use directive for Sling Model integration".data,
          "Security risk: avoid eval() function".data]
        [ "Add ARIA attributes for better accessibility".data,
          "Consider adding conditional rendering with data-sly-test".data,
          "Add CSS classes for styling".data]
        [ ( "completeness".data, 50), ( "bestPractices".data, 80),
          ( "performance".data, 95), ( "accessibility".data, 90),
          ( "security".data, 50)]).details "security".data ≤ 50 :=
  eval_pattern_spec [ ( "htl".data, FileVal.str "x eval( y".data)] _ "htl".data
    "x eval( y".data rfl (List.mem_singleton.mpr rfl) (by decide)

theorem matchCount_le_total {files : Files} {name c : Str}
    (hmem : (name, FileVal.str c) ∈ files) :
    placeholderMatchCount c ≤ placeholderTotal files := by
  unfold placeholderTotal
  have hm : placeholderMatchCount c ∈ files.map (fun p =>
      match p.2 with
      | FileVal.str cc => placeholderMatchCount cc
      | FileVal.dict _ => 0) :=
    List.mem_map.2 ⟨(name, FileVal.str c), hmem, rfl⟩
  exact List.single_le_sum (fun x _ => Nat.zero_le x) _ hm

/-- Claim C8 as amended: the placeholder loop deducts 15 from completeness once
per (file, matching pattern) pair and appends one copy of the per-file issue
string per matching pattern — it does NOT deduplicate by file. For a bundle
with distinct file names, a string artifact matching k of the eight
case-insensitive placeholder patterns contributes k copies of its issue string,
and the completeness category is 100 minus 15 times the total number of
(file, pattern) hits (minus the other completeness deductions), clamped. -/
theorem placeholder_per_pattern_spec (files : Files) (r : Report) (name c : Str)
    (h : automated_validation files = .ok r)
    (hmem : (name, FileVal.str c) ∈ files)
    (hnodup : (files.map Prod.fst).Nodup) :
    r.issues.count (placeholderMsg name) = placeholderMatchCount c ∧
      (check_compilation_errors files).map
        (fun ci => pyClamp (completenessRaw files ci (slingBranch files))) =
        .ok (detailsGet r.details "completeness".data) ∧
      placeholderMatchCount c ≤ placeholderTotal files := by
  obtain ⟨ji, pi, ci, vi, ht, hji, hpi, hci, hvi, hht, rfl⟩ := automated_validation_shape h
  obtain ⟨l1, l2, hl1, hl2, hvieq⟩ := security_step_decomp hvi
  have hx := placeholderMsg_pre name
  have hvi0 : vi.count (placeholderMsg name) = 0 := by
    rw [hvieq, List.count_append, List.count_append,
      count_sweep_ne (ne_of_pre hx (by decide)) (ne_of_pre hx (by decide))
        (ne_of_pre hx (by decide)) (ne_of_pre hx (by decide)) (ne_of_pre hx (by decide))
        (ne_of_pre hx (by decide)) (ne_of_pre hx (by decide)) (ne_of_pre hx (by decide))
        (ne_of_pre hx (by decide)) (ne_of_pre hx (by decide)) (ne_of_pre hx (by decide)),
      count_slingSecPart_ne hl1 (ne_of_pre hx (by decide)) (ne_of_pre hx (by decide))
        (fun f => ne_of_pre_pre hx (getterNullMsg_pre f) (by decide) (by decide)),
      count_htlSecPart_ne hl2 (ne_of_pre hx (by decide)) (ne_of_pre hx (by decide))]
  refine ⟨?_, ?_, matchCount_le_total hmem⟩
  · rw [assembleReport_issues]
    simp only [List.count_append]
    rw [count_placeholder_self hmem hnodup, hvi0,
      count_javaStep_ne hji (ne_of_pre hx (by decide))
        (fun a b => ne_of_pre_pre hx (classMismatchMsg_pre a b) (by decide) (by decide))
        (fun a => ne_of_pre_pre hx (modelSuffixMsg_pre a) (by decide) (by decide))
        (fun a => ne_of_pre_pre hx (pascalCaseMsg_pre a) (by decide) (by decide)),
      count_package_ne hpi (ne_of_pre hx (by decide))
        (fun a => ne_of_pre_pre hx (pkgEndMsg_pre a) (by decide) (by decide))
        (fun a b => ne_of_pre_pre hx (pkgPathMsg_pre a b) (by decide) (by decide)),
      count_compilation_ne hci
        (fun a => ne_of_pre_pre hx (missingImportMsg_pre a) (by decide) (by decide))
        (ne_of_pre hx (by decide)) (ne_of_pre hx (by decide)) (ne_of_pre hx (by decide))
        (fun o c2 => ne_of_pre_pre hx (bracesMsg_pre o c2) (by decide) (by decide))
        (fun o c2 => ne_of_pre_pre hx (parensMsg_pre o c2) (by decide) (by decide))
        (fun g f => ne_of_pre_pre hx (getterMissingMsg_pre g f) (by decide) (by decide))
        (fun t => ne_of_pre_pre hx (unmatchedTagMsg_pre t) (by decide) (by decide))
        (fun m => ne_of_pre_pre hx (slyUseNameMsg_pre m) (by decide) (by decide)),
      count_htlseg_ne (ne_of_pre hx (by decide)),
      count_slingseg_ne (ne_of_pre hx (by decide)) (ne_of_pre hx (by decide)),
      count_ite_single, count_ite_single, count_ite_single]
    have hm2 := ne_of_pre_pre (missingFilesMsg_pre (missingFiles files)) hx
      (by decide) (by decide)
    simp [hm2,
      ( ne_of_pre hx (by decide) : placeholderMsg name ≠ innerHtmlIssueMsg).symm,
      ( ne_of_pre hx (by decide) : placeholderMsg name ≠ evalLowerMsg).symm]
  · rw [hci]
    rfl

/-- Claim C8, counterexample: a single file whose content "TODO ... placeholder"
matches three of the placeholder patterns contributes its issue string three
times (not once) and triggers three 15-point completeness deductions: with the
75-point missing-files deductions the completeness category is clamped to 0,
whereas a single per-file deduction would leave 100 − 15 − 75 = 10. -/
theorem placeholder_triple_count :
    (automated_validation [ ( "f".data, FileVal.str "TODO ... placeholder".data)]).map
        (fun r => r.issues.count (placeholderMsg "f".data)) = .ok 3 ∧
      (automated_validation [ ( "f".data, FileVal.str "TODO ... placeholder".data)]).map
        (fun r => detailsGet r.details "completeness".data) = .ok 0 ∧
      (3 : Nat) ≠ 1 := ⟨rfl, rfl, by decide⟩

/-- Claim C8, witness: the amended statement instantiated on the bundle whose
only artifact `slingModel` is the string "TODO" (one matching pattern). -/
theorem placeholder_per_pattern_spec_witness :
    (Report.mk "FAIL".data 67
        [ "Placeholder or incomplete code found in slingModel".data,
          "Missing or empty required files: htl, dialog".data,
          "Missing package declaration in Sling Model".data,
          "Sling Model missing @Model annotation".data,
          "Missing null safety checks in Sling Model".data]
        [ "Consider using dependency injection (@Inject, @ValueMapValue)".data]
        [ ( "completeness".data, 35), ( "bestPractices".data, 55),
          ( "performance".data, 100), ( "accessibility".data, 100),
          ( "security".data, 85)]).issues.count
        (placeholderMsg "slingModel".data) = placeholderMatchCount "TODO".data ∧
      (check_compilation_errors
          [ ( "slingModel".data, FileVal.str "TODO".data)]).map
        (fun ci => pyClamp (completenessRaw
          [ ( "slingModel".data, FileVal.str "TODO".data)] ci
          (slingBranch [ ( "slingModel".data, FileVal.str "TODO".data)]))) =
        .ok (detailsGet (Report.mk "FAIL".data 67
          [ "Placeholder or incomplete code found in slingModel".data,
            "Missing or empty required files: htl, dialog".data,
            "Missing package declaration in Sling Model".data,
            "Sling Model missing @Model annotation".data,
            "Missing null safety checks in Sling Model".data]
          [ "Consider using dependency injection (@Inject, @ValueMapValue)".data]
          [ ( "completeness".data, 35), ( "bestPractices".data, 55),
            ( "performance".data, 100), ( "accessibility".data, 100),
            ( "security".data, 85)]).details "completeness".data) ∧
      placeholderMatchCount "TODO".data ≤
        placeholderTotal [ ( "slingModel".data, FileVal.str "TODO".data)] :=
  placeholder_per_pattern_spec [ ( "slingModel".data, FileVal.str "TODO".data)] _
    "slingModel".data "TODO".data rfl (List.mem_singleton.mpr rfl) (by decide)
